import Mathlib

/-!
# ACVDQ command-line driver (`DiscreteRemeshing/Examples/ACVDQ.cxx`)

A shallow embedding of `main` of the ACVDQ driver: the positional
arguments, the option loop, the two constraint-file readers (`-fv`, `-ft`),
the configuration of the remeshing engine, the check that the fixed
vertices survived remeshing, and the name of the file the result is
written to.

Conventions of the embedding.

* A C string is a Lean `String`; one `Char` stands for one `char`.
* `vtkIdType` and `int` values are `Int`; the range of `int` is explicit
  where the code depends on it (`input >> id`, `atoi`).
* A `double` is its IEEE-754 binary64 bit pattern; `==` on doubles is
  `Double.eq`.
* Behaviour that C++ leaves undefined (an array index out of range, a null
  `char *` handed to `atoi` or to `operator<<`, a `strcpy` past the end of
  its buffer, `atoi` of an unrepresentable value) is the absence of a
  result: `none`, or `Outcome.undefined` for the whole run.
* The collaborators that are not part of the driver (mesh loading, edge
  splitting, `atof`, standard input, the remeshing engine, the file system)
  are the fields of `Env`.
-/

namespace ACVDQ

/-! ## Doubles -/

/-- An IEEE-754 binary64 value, given by its 64-bit pattern. -/
structure Double where
  bits : Nat
deriving DecidableEq, Repr

/-- The eleven exponent bits. -/
def Double.exponent (d : Double) : Nat := (d.bits / 2 ^ 52) % 2 ^ 11

/-- The fifty-two fraction bits. -/
def Double.mantissa (d : Double) : Nat := d.bits % 2 ^ 52

/-- Not-a-number: all exponent bits set and a non-zero fraction. -/
def Double.isNaN (d : Double) : Bool := d.exponent == 2047 && d.mantissa != 0

/-- Positive or negative zero. -/
def Double.isZero (d : Double) : Bool := d.exponent == 0 && d.mantissa == 0

/-- The C++ `==` on doubles: a NaN equals nothing, the two zeros are equal,
every other value equals only itself. -/
def Double.eq (a b : Double) : Bool :=
  !a.isNaN && !b.isNaN && (a.bits % 2 ^ 64 == b.bits % 2 ^ 64 || (a.isZero && b.isZero))

/-! ## Reading integers from text -/

/-- The `isspace` of the C locale: space, and the characters 9 to 13. -/
def isspace (c : Char) : Bool := c.toNat == 32 || (9 ≤ c.toNat && c.toNat ≤ 13)

/-- The `isdigit` of C. -/
def isdigit (c : Char) : Bool := 48 ≤ c.toNat && c.toNat ≤ 57

/-- The value of a decimal digit character. -/
def digitValue (c : Char) : Nat := c.toNat - 48

/-- The value of a run of decimal digits, most significant digit first. -/
def decimalValue (ds : List Char) : Nat := ds.foldl (fun acc c => acc * 10 + digitValue c) 0

/-- Splits an optional sign off the front of the text. -/
def takeSign : List Char → Bool × List Char
  | [] => (false, [])
  | c :: t => if c = '-' then (true, t) else if c = '+' then (false, t) else (false, c :: t)

/-- The common scan of `operator>>(int&)` and `strtol` in base ten: leading
white space is skipped, an optional sign is taken, then the longest run of
digits. The result is the signed value and the unread text, or `none` when
no digit follows. -/
def scanInteger (s : List Char) : Option (Int × List Char) :=
  let s2 := takeSign (s.dropWhile isspace)
  let ds := s2.2.takeWhile isdigit
  if ds.isEmpty then none
  else some (if s2.1 then -(decimalValue ds : Int) else (decimalValue ds : Int), s2.2.dropWhile isdigit)

/-- The smallest `int`. -/
def INT_MIN : Int := -2147483648

/-- The largest `int`. -/
def INT_MAX : Int := 2147483647

/-- One `input >> id` with `int id`: the extraction succeeds when an integer
that fits an `int` can be read; otherwise the stream fails (`none`). -/
def extractInt (s : List Char) : Option (Int × List Char) :=
  match scanInteger s with
  | none => none
  | some (v, rest) => if INT_MIN ≤ v ∧ v ≤ INT_MAX then some (v, rest) else none

/-- The loop `while (input >> id) ...`, as the list of the values read. Each
successful extraction consumes at least one character, so `fuel` above the
length of the text is never exhausted. -/
def readIdsFuel : Nat → List Char → List Int
  | 0, _ => []
  | fuel + 1, s =>
    match extractInt s with
    | none => []
    | some (id, rest) => id :: readIdsFuel fuel rest

/-- The identifiers `while (input >> id)` reads from a text. -/
def readIds (s : List Char) : List Int := readIdsFuel (s.length + 1) s

/-- The identifiers read from a stream opened on a file: a file that cannot
be opened leaves the stream failed, and the loop body never runs. -/
def readStream : Option (List Char) → List Int
  | none => []
  | some content => readIds content

/-- The C `atoi`: `strtol` in base ten, zero when no digits can be read, and
undefined (`none`) when the value does not fit an `int`. -/
def atoi (s : String) : Option Int :=
  match scanInteger s.data with
  | none => some 0
  | some (v, _) => if INT_MIN ≤ v ∧ v ≤ INT_MAX then some v else none

/-! ## Meshes -/

/-- The three coordinates of a point (`double c[3]`). -/
structure Coords where
  x : Double
  y : Double
  z : Double
deriving DecidableEq, Repr

/-- The entry `c[j]` of a coordinate triple. -/
def Coords.get (c : Coords) : Nat → Double
  | 0 => c.x
  | 1 => c.y
  | _ => c.z

/-- A triangle: its three corner vertex identifiers. -/
structure Face where
  v1 : Int
  v2 : Int
  v3 : Int
deriving DecidableEq, Repr

/-- The part of `vtkSurface` the driver uses: the points and the triangles,
both indexed from zero. -/
structure Mesh where
  points : List Coords
  faces : List Face
deriving DecidableEq, Repr

/-- The number of points of the mesh, `mesh->GetNumberOfPoints()`. -/
def Mesh.GetNumberOfPoints (m : Mesh) : Nat := m.points.length

/-- The table lookup `xs[i]` with a signed index; `none` outside the table. -/
def lookup {α : Type} (xs : List α) (i : Int) : Option α :=
  if 0 ≤ i then xs.get? i.toNat else none

/-- The coordinates of point `v`, `mesh->GetPointCoordinates(v, c)`. -/
def Mesh.GetPointCoordinates (m : Mesh) (v : Int) : Option Coords := lookup m.points v

/-- The corners of face `id`, `mesh->GetFaceVertices(id, v1, v2, v3)`. -/
def Mesh.GetFaceVertices (m : Mesh) (id : Int) : Option Face := lookup m.faces id

/-- A vertex identifier of the mesh: `0 <= v < GetNumberOfPoints()`. -/
def Mesh.validVertex (m : Mesh) (v : Int) : Prop := 0 ≤ v ∧ v < m.GetNumberOfPoints

/-- A face identifier of the mesh. -/
def Mesh.validFace (m : Mesh) (id : Int) : Prop := 0 ≤ id ∧ id < m.faces.length

/-- The invariant of a triangle mesh: the corners of every face are vertices
of the mesh. -/
def Mesh.wellFormed (m : Mesh) : Prop :=
  ∀ f ∈ m.faces, m.validVertex f.v1 ∧ m.validVertex f.v2 ∧ m.validVertex f.v3

instance (m : Mesh) (v : Int) : Decidable (m.validVertex v) := by
  unfold Mesh.validVertex; infer_instance

instance (m : Mesh) (id : Int) : Decidable (m.validFace id) := by
  unfold Mesh.validFace; infer_instance

instance (m : Mesh) : Decidable m.wellFormed := by
  unfold Mesh.wellFormed; infer_instance

/-! ## The constraint readers -/

/-- The branch `-fv`: every integer of the file is appended to a fresh id
list (`fixedVertices->InsertNextId(id)`). -/
def resolveVertexList (content : Option (List Char)) : List Int := readStream content

/-- The assignment `fixed[v] = true` on an array of `fixed.length` flags. -/
def markFixed (fixed : List Bool) (v : Int) : Option (List Bool) :=
  if 0 ≤ v ∧ v < fixed.length then some (fixed.set v.toNat true) else none

/-- The body of the `-ft` reading loop, for the face identifiers read:
`fixed[v1] = fixed[v2] = fixed[v3] = true` for the corners of each face. -/
def markFaces (mesh : Mesh) : List Int → List Bool → Option (List Bool)
  | [], fixed => some fixed
  | id :: rest, fixed =>
    match mesh.GetFaceVertices id with
    | none => none
    | some f =>
      match markFixed fixed f.v3 with
      | none => none
      | some fixed3 =>
        match markFixed fixed3 f.v2 with
        | none => none
        | some fixed2 =>
          match markFixed fixed2 f.v1 with
          | none => none
          | some fixed1 => markFaces mesh rest fixed1

/-- The final loop of `-ft`: `for i: if (fixed[i]) InsertNextId(i)`. -/
def collectFixed (fixed : List Bool) : List Int :=
  ((List.range fixed.length).filter fun i => fixed.getD i false).map Int.ofNat

/-- The branch `-ft`: the flags start all false, the corners of every face
read from the file are marked, and the marked indices are collected in
increasing order. -/
def resolveFaceList (mesh : Mesh) (content : Option (List Char)) : Option (List Int) :=
  match markFaces mesh (readStream content) (List.replicate mesh.GetNumberOfPoints false) with
  | none => none
  | some fixed => some (collectFixed fixed)

/-! ## The check of the constraints -/

/-- The comparison of two coordinate triples by the loop over `j`:
`c1[j] == c2[j]` for `j = 0, 1, 2`. -/
def coordinatesMatch (c1 c2 : Coords) : Bool :=
  (List.range 3).all fun j => Double.eq (c1.get j) (c2.get j)

/-- The result of the check of the constraints. -/
inductive CheckResult where
  | checked
  | lost (v : Int)
  | undefined
deriving DecidableEq, Repr

/-- The loop over the fixed vertices, from position `i` on: point
`fixedVertices->GetId(i)` of the input mesh against point `i` of the output
mesh; the first mismatch prints the vertex and exits. -/
def checkFrom (mesh mesh2 : Mesh) : Nat → List Int → CheckResult
  | _, [] => CheckResult.checked
  | i, v :: rest =>
    match mesh.GetPointCoordinates v, mesh2.GetPointCoordinates i with
    | some c1, some c2 =>
      if coordinatesMatch c1 c2 then checkFrom mesh mesh2 (i + 1) rest else CheckResult.lost v
    | _, _ => CheckResult.undefined

/-- The check that the vertex constraints are respected. -/
def checkConstraints (mesh mesh2 : Mesh) (fixedVertices : List Int) : CheckResult :=
  checkFrom mesh mesh2 0 fixedVertices

/-! ## The remeshing engine, as the driver sees it -/

/-- The settings of `vtkQIsotropicDiscreteRemeshing` that the driver
writes. A setting the driver has not written is `none`: the engine keeps its
own default. `AnchorItems` lists the assignments
`GetCluster(i)->AnchorItem = id` in the order they are made. -/
structure Remesher where
  ForceManifold : Option Int
  NumberOfThreads : Option Int
  OutputDirectory : Option String
  WriteToGlobalEnergyLog : Option Int
  PoolingRatio : Option Int
  QuadricsOptimizationLevel : Option Int
  InputDensityFile : Option String
  MaxCustomDensity : Option Double
  MinCustomDensity : Option Double
  CustomDensityMultiplicationFactor : Option Double
  BoundaryFixing : Option Int
  AnchorRenderWindow : Bool
  Input : Option Mesh
  FileLoadSaveOption : Option Int
  ConsoleOutput : Option Int
  SubsamplingThreshold : Option Int
  Gradation : Option Double
  Display : Option Int
  UnconstrainedInitialization : Option Int
  FixedClusters : Option (List Int)
  NumberOfClusters : Option Int
  AnchorItems : List (Nat × Int)
deriving DecidableEq, Repr

/-- The engine as `vtkQIsotropicDiscreteRemeshing::New()` returns it. -/
def Remesher.New : Remesher :=
  { ForceManifold := none, NumberOfThreads := none, OutputDirectory := none,
    WriteToGlobalEnergyLog := none, PoolingRatio := none,
    QuadricsOptimizationLevel := none, InputDensityFile := none,
    MaxCustomDensity := none, MinCustomDensity := none,
    CustomDensityMultiplicationFactor := none, BoundaryFixing := none,
    AnchorRenderWindow := false, Input := none, FileLoadSaveOption := none,
    ConsoleOutput := none, SubsamplingThreshold := none, Gradation := none,
    Display := none, UnconstrainedInitialization := none, FixedClusters := none,
    NumberOfClusters := none, AnchorItems := [] }

/-- The collaborators of the driver. -/
structure Env where
  /-- Whether the driver is compiled with `DOmultithread`. -/
  DOmultithread : Bool
  /-- The mesh `mesh->CreateFromFile(filename)` loads. -/
  CreateFromFile : String → Mesh
  /-- The mesh after `mesh->SplitLongEdges(ratio)`. -/
  SplitLongEdges : Mesh → Double → Mesh
  /-- The C `atof`. -/
  atof : String → Double
  /-- The value of `numberOfSamples` after `std::cin >> numberOfSamples`. -/
  cinNumberOfSamples : Int
  /-- The value of `gradation` after `std::cin >> gradation`. -/
  cinGradation : Double
  /-- The content of the file of a given name; `none` when it cannot be opened. -/
  openFile : String → Option (List Char)
  /-- The output mesh of `remesh->Remesh()`, `remesh->GetOutput()`. -/
  Remesh : Remesher → Mesh

/-! ## The option loop -/

/-- The variables of `main` that the option loop reads and writes. -/
structure LoopState where
  mesh : Mesh
  remesh : Remesher
  subsamplingThreshold : Int
  display : Int
  outputDirectory : Option String
  fixedVertices : Option (List Int)
deriving DecidableEq, Repr

/-- The first chain: `-m`, else `-s`, else `-d`. -/
def chainMSD (key : String) (value : Option String) (st : LoopState) : Option LoopState :=
  if key = "-m" then
    match value.bind atoi with
    | none => none
    | some n => some { st with remesh := { st.remesh with ForceManifold := some n } }
  else if key = "-s" then
    match value.bind atoi with
    | none => none
    | some n => some { st with subsamplingThreshold := n }
  else if key = "-d" then
    match value.bind atoi with
    | none => none
    | some n => some { st with display := n }
  else some st

/-- The statement `-np`, compiled only with `DOmultithread`. -/
def optionNP (key : String) (value : Option String) (st : LoopState) : Option LoopState :=
  if key = "-np" then
    match value.bind atoi with
    | none => none
    | some n => some { st with remesh := { st.remesh with NumberOfThreads := some n } }
  else some st

/-- The second chain: `-o`, else `-l`, else `-w`. -/
def chainOLW (env : Env) (key : String) (value : Option String) (st : LoopState) :
    Option LoopState :=
  if key = "-o" then
    match value with
    | none => none
    | some v =>
      some { st with outputDirectory := some v,
                     remesh := { st.remesh with OutputDirectory := some v } }
  else if key = "-l" then
    match value with
    | none => none
    | some v => some { st with mesh := env.SplitLongEdges st.mesh (env.atof v) }
  else if key = "-w" then
    match value.bind atoi with
    | none => none
    | some n => some { st with remesh := { st.remesh with WriteToGlobalEnergyLog := some n } }
  else some st

/-- The statement `-p`, compiled only with `DOmultithread`. -/
def optionP (key : String) (value : Option String) (st : LoopState) : Option LoopState :=
  if key = "-p" then
    match value.bind atoi with
    | none => none
    | some n => some { st with remesh := { st.remesh with PoolingRatio := some n } }
  else some st

/-- The third chain: `-q`, else `-cd`, else `-cmax`, else `-cmin`. -/
def chainQC (env : Env) (key : String) (value : Option String) (st : LoopState) :
    Option LoopState :=
  if key = "-q" then
    match value.bind atoi with
    | none => none
    | some n => some { st with remesh := { st.remesh with QuadricsOptimizationLevel := some n } }
  else if key = "-cd" then
    match value with
    | none => none
    | some v => some { st with remesh := { st.remesh with InputDensityFile := some v } }
  else if key = "-cmax" then
    match value with
    | none => none
    | some v => some { st with remesh := { st.remesh with MaxCustomDensity := some (env.atof v) } }
  else if key = "-cmin" then
    match value with
    | none => none
    | some v => some { st with remesh := { st.remesh with MinCustomDensity := some (env.atof v) } }
  else some st

/-- The fourth chain: `-cf`, else `-b`, else `-fv`, else `-ft`. -/
def chainCFBF (env : Env) (key : String) (value : Option String) (st : LoopState) :
    Option LoopState :=
  if key = "-cf" then
    match value with
    | none => none
    | some v =>
      some { st with remesh :=
        { st.remesh with CustomDensityMultiplicationFactor := some (env.atof v) } }
  else if key = "-b" then
    match value.bind atoi with
    | none => none
    | some n => some { st with remesh := { st.remesh with BoundaryFixing := some n } }
  else if key = "-fv" then
    match value with
    | none => none
    | some v => some { st with fixedVertices := some (resolveVertexList (env.openFile v)) }
  else if key = "-ft" then
    match value with
    | none => none
    | some v =>
      match resolveFaceList st.mesh (env.openFile v) with
      | none => none
      | some ids => some { st with fixedVertices := some ids }
  else some st

/-- One turn of the option loop on `key = argv[argumentsIndex]` and
`value = argv[argumentsIndex + 1]` (`none` for the null pointer that ends
`argv`): the four chains and the two conditional statements, in the order of
the source. -/
def handleOption (env : Env) (key : String) (value : Option String) (st : LoopState) :
    Option LoopState :=
  (chainMSD key value st).bind fun st1 =>
  (if env.DOmultithread then optionNP key value st1 else some st1).bind fun st2 =>
  (chainOLW env key value st2).bind fun st3 =>
  (if env.DOmultithread then optionP key value st3 else some st3).bind fun st4 =>
  (chainQC env key value st4).bind fun st5 =>
  chainCFBF env key value st5

/-- The loop `while (argumentsIndex < argc) ... argumentsIndex += 2`. Every
turn adds two to the index, so `fuel` above `argc` is never exhausted. -/
def optionLoop (env : Env) (argv : List String) : Nat → Nat → LoopState → Option LoopState
  | 0, _, _ => none
  | fuel + 1, argumentsIndex, st =>
    if argumentsIndex < argv.length then
      match argv.get? argumentsIndex with
      | none => none
      | some key =>
        match handleOption env key (argv.get? (argumentsIndex + 1)) st with
        | none => none
        | some st2 => optionLoop env argv fuel (argumentsIndex + 2) st2
    else some st

/-- The indices of `argv` that the head of the loop body reads
(`argv[argumentsIndex]` and `argv[argumentsIndex + 1]`), in the order of the
reads, for the run of the loop that `optionLoop` describes. -/
def optionLoopReads (env : Env) (argv : List String) : Nat → Nat → LoopState → List Nat
  | 0, _, _ => []
  | fuel + 1, argumentsIndex, st =>
    if argumentsIndex < argv.length then
      argumentsIndex :: (argumentsIndex + 1) ::
        match argv.get? argumentsIndex with
        | none => []
        | some key =>
          match handleOption env key (argv.get? (argumentsIndex + 1)) st with
          | none => []
          | some st2 => optionLoopReads env argv fuel (argumentsIndex + 2) st2
    else []

/-! ## The whole run -/

/-- The ways a run of `main` ends. -/
inductive Outcome where
  /-- The run leaves the behaviour defined by C++. -/
  | undefined
  /-- No file argument: the usage text is printed and `main` returns 0. -/
  | usage
  /-- A fixed vertex was lost: `exit(1)` before anything is written. -/
  | lost (v : Int) (remesh : Remesher)
  /-- The output mesh was handed to the PLY writer under the name
  `realFile`, and `main` returned. -/
  | written (realFile : String) (output : Mesh) (remesh : Remesher)
      (fixedVertices : Option (List Int))
deriving DecidableEq, Repr

/-- The exit code of the process. -/
def Outcome.exitCode : Outcome → Option Int
  | Outcome.undefined => none
  | Outcome.usage => some 0
  | Outcome.lost _ _ => some 1
  | Outcome.written _ _ _ _ => some 0

/-- The output file written by the run, if any. -/
def Outcome.outputFile : Outcome → Option (String × Mesh)
  | Outcome.written realFile output _ _ => some (realFile, output)
  | _ => none

/-- The state of the variables when the option loop starts. -/
def initialState (mesh : Mesh) : LoopState :=
  { mesh := mesh, remesh := Remesher.New, subsamplingThreshold := 10, display := 0,
    outputDirectory := none, fixedVertices := none }

/-- The assignments `remesh->GetCluster(i)->AnchorItem = fixedVertices->GetId(i)`
from cluster `i` on. -/
def pinClusters : Nat → List Int → List (Nat × Int)
  | _, [] => []
  | i, v :: rest => (i, v) :: pinClusters (i + 1) rest

/-- The configuration of the engine between the option loop and
`remesh->Remesh()`. -/
def configure (st : LoopState) (numberOfSamples : Int) (gradation : Double) : Remesher :=
  let remesh1 : Remesher :=
    if st.display ≠ 0 then { st.remesh with AnchorRenderWindow := true } else st.remesh
  let remesh2 : Remesher :=
    { remesh1 with Input := some st.mesh, FileLoadSaveOption := some 0,
                   ConsoleOutput := some 2,
                   SubsamplingThreshold := some st.subsamplingThreshold,
                   Gradation := some gradation, Display := some st.display,
                   UnconstrainedInitialization := some 1 }
  match st.fixedVertices with
  | some ids =>
    { remesh2 with FixedClusters := some ids,
                   NumberOfClusters := some (numberOfSamples + ids.length),
                   AnchorItems := pinClusters 0 ids }
  | none => { remesh2 with NumberOfClusters := some numberOfSamples }

/-- The name built in `char realFile[5000]`: `strcpy` of the output
directory followed by `strcat` of the file name, or the file name alone. -/
def realFileName (outputDirectory : Option String) : Option String :=
  match outputDirectory with
  | some d =>
    if d.length + "simplification.ply".length < 5000 then some (d ++ "simplification.ply")
    else none
  | none => some "simplification.ply"

/-- The end of `main`, from `remesh->Remesh()` on: the check of the
constraints, then the writing of the output. -/
def finish (env : Env) (st : LoopState) (remesh : Remesher) : Outcome :=
  let mesh2 := env.Remesh remesh
  let check : CheckResult :=
    match st.fixedVertices with
    | some ids => checkConstraints st.mesh mesh2 ids
    | none => CheckResult.checked
  match check with
  | CheckResult.undefined => Outcome.undefined
  | CheckResult.lost v => Outcome.lost v remesh
  | CheckResult.checked =>
    match realFileName st.outputDirectory with
    | none => Outcome.undefined
    | some realFile => Outcome.written realFile mesh2 remesh st.fixedVertices

/-- The mandatory argument `numberOfSamples`: `atoi(argv[2])` when
`argc > 2`, read from standard input otherwise. -/
def numberOfSamples (env : Env) (argv : List String) : Option Int :=
  match argv.get? 2 with
  | some a => atoi a
  | none => some env.cinNumberOfSamples

/-- The mandatory argument `gradation`: `atof(argv[3])` when `argc > 3`, read
from standard input otherwise. -/
def gradation (env : Env) (argv : List String) : Double :=
  match argv.get? 3 with
  | some a => env.atof a
  | none => env.cinGradation

/-- The function `main` on the argument vector `argv` (`argc` is its length). -/
def main (env : Env) (argv : List String) : Outcome :=
  match argv.get? 1 with
  | none => Outcome.usage
  | some filename =>
    if 5000 ≤ filename.length then Outcome.undefined
    else
      match numberOfSamples env argv with
      | none => Outcome.undefined
      | some n =>
        match optionLoop env argv (argv.length + 1) 4
            (initialState (env.CreateFromFile filename)) with
        | none => Outcome.undefined
        | some st => finish env st (configure st n (gradation env argv))

/-! ## Vocabulary of the statements -/

/-- Vertex `v` is one of the three corners of the face. -/
def Face.hasCorner (f : Face) (v : Int) : Prop := v = f.v1 ∨ v = f.v2 ∨ v = f.v3

/-- Vertex `v` is a corner of at least one of the listed faces of the mesh. -/
def cornerOfListed (mesh : Mesh) (ids : List Int) (v : Int) : Prop :=
  ∃ id ∈ ids, ∃ f, mesh.GetFaceVertices id = some f ∧ f.hasCorner v

/-- The three coordinates are pairwise equal under the C++ `==`. -/
def coordsEqual (c1 c2 : Coords) : Prop :=
  Double.eq c1.x c2.x = true ∧ Double.eq c1.y c2.y = true ∧ Double.eq c1.z c2.z = true

/-- Input vertex `v` and output vertex `p` both exist and have equal
coordinates. -/
def vertexKept (mesh mesh2 : Mesh) (v : Int) (p : Nat) : Prop :=
  ∃ c1 c2, mesh.GetPointCoordinates v = some c1 ∧ mesh2.GetPointCoordinates (p : Int) = some c2 ∧
    coordsEqual c1 c2

/-- The anchor at position `i` of the list is kept: input vertex `ids[i]`
equals output vertex `i`. -/
def anchorKept (mesh mesh2 : Mesh) (ids : List Int) (i : Nat) : Prop :=
  ∃ v, ids.get? i = some v ∧ vertexKept mesh mesh2 v i

instance (c1 c2 : Coords) : Decidable (coordsEqual c1 c2) := by
  unfold coordsEqual; infer_instance

instance (mesh mesh2 : Mesh) (v : Int) (p : Nat) : Decidable (vertexKept mesh mesh2 v p) :=
  match h1 : mesh.GetPointCoordinates v, h2 : mesh2.GetPointCoordinates (p : Int) with
  | some c1, some c2 =>
    if h : coordsEqual c1 c2 then isTrue ⟨c1, c2, h1, h2, h⟩
    else isFalse (fun ⟨d1, d2, e1, e2, e3⟩ =>
      h (by rw [h1] at e1; rw [h2] at e2; cases e1; cases e2; exact e3))
  | none, _ => isFalse (fun ⟨d1, _, e1, _, _⟩ => by rw [h1] at e1; cases e1)
  | some _, none => isFalse (fun ⟨_, d2, _, e2, _⟩ => by rw [h2] at e2; cases e2)

instance (mesh mesh2 : Mesh) (ids : List Int) (i : Nat) :
    Decidable (anchorKept mesh mesh2 ids i) :=
  match h : ids.get? i with
  | some v =>
    if hk : vertexKept mesh mesh2 v i then isTrue ⟨v, h, hk⟩
    else isFalse (fun ⟨w, e1, e2⟩ => hk (by rw [h] at e1; cases e1; exact e2))
  | none => isFalse (fun ⟨w, e1, _⟩ => by rw [h] at e1; cases e1)

/-- No coordinate of the point is a NaN. -/
def Coords.noNaN (c : Coords) : Prop :=
  c.x.isNaN = false ∧ c.y.isNaN = false ∧ c.z.isNaN = false

/-- The double `0.0`. -/
def zero : Double := ⟨0⟩

/-- The double `1.0`. -/
def one : Double := ⟨4607182418800017408⟩

/-- A quiet NaN. -/
def quietNaN : Double := ⟨9221120237041090560⟩

/-- A mesh of one triangle with corners `(0,0,0)`, `(1,0,0)`, `(0,1,0)`. -/
def triangleMesh : Mesh :=
  { points := [⟨zero, zero, zero⟩, ⟨one, zero, zero⟩, ⟨zero, one, zero⟩],
    faces := [⟨0, 1, 2⟩] }

/-- A mesh of two triangles on four points; point 3 is used by the second
triangle only. -/
def squareMesh : Mesh :=
  { points := [⟨zero, zero, zero⟩, ⟨one, zero, zero⟩, ⟨zero, one, zero⟩, ⟨one, one, zero⟩],
    faces := [⟨0, 1, 2⟩, ⟨1, 3, 2⟩] }

/-- A mesh whose only point has a NaN coordinate. -/
def nanMesh : Mesh := { points := [⟨quietNaN, zero, zero⟩], faces := [] }

/-- An engine stub that returns its input mesh unchanged. -/
def identityRemesh (r : Remesher) : Mesh := r.Input.getD { points := [], faces := [] }

/-- An environment for examples: every mesh file holds `mesh`, the file
`c.txt` holds `constraints`, no other file can be opened, and the engine is
`engine`. -/
def exampleEnv (mesh : Mesh) (constraints : String) (engine : Remesher → Mesh) : Env :=
  { DOmultithread := false,
    CreateFromFile := fun _ => mesh,
    SplitLongEdges := fun m _ => m,
    atof := fun _ => zero,
    cinNumberOfSamples := 500,
    cinGradation := zero,
    openFile := fun name => if name = "c.txt" then some constraints.data else none,
    Remesh := engine }

/-- The sign written in front of a decimal numeral. -/
inductive Sign where
  | unsigned
  | plus
  | minus
deriving DecidableEq, Repr

/-- The text of the sign. -/
def Sign.text : Sign → List Char
  | Sign.unsigned => []
  | Sign.plus => ['+']
  | Sign.minus => ['-']

/-- An integer as a constraint file writes it: an optional sign followed by
decimal digits, most significant first. -/
structure Numeral where
  sign : Sign
  digits : List Char
deriving DecidableEq, Repr

/-- The numeral has at least one digit and only digits after its sign. -/
def Numeral.wellFormed (n : Numeral) : Prop :=
  n.digits ≠ [] ∧ ∀ c ∈ n.digits, isdigit c = true

/-- The integer the numeral denotes, by positional value in base ten. -/
def Numeral.value (n : Numeral) : Int :=
  match n.sign with
  | Sign.minus => -(Nat.ofDigits 10 (n.digits.map digitValue).reverse : Nat)
  | _ => (Nat.ofDigits 10 (n.digits.map digitValue).reverse : Nat)

/-- The characters of the numeral. -/
def Numeral.text (n : Numeral) : List Char := n.sign.text ++ n.digits

/-- The numeral denotes a value of the type `int`. -/
def Numeral.fitsInt (n : Numeral) : Prop := INT_MIN ≤ n.value ∧ n.value ≤ INT_MAX

/-- An entry of a constraint file: the white space in front of a numeral,
and the numeral. -/
structure Token where
  space : List Char
  numeral : Numeral
deriving DecidableEq, Repr

/-- The text of a list of entries. -/
def tokensText : List Token → List Char
  | [] => []
  | t :: rest => t.space ++ t.numeral.text ++ tokensText rest

/-- The entries are separated: each numeral is well formed and fits an
`int`, only white space stands in front of it, and at least one white-space
character stands in front of every numeral but the first when `first` is
set. -/
def separated : Bool → List Token → Prop
  | _, [] => True
  | first, t :: rest =>
    (∀ c ∈ t.space, isspace c = true) ∧ (first = false → t.space ≠ []) ∧
    t.numeral.wellFormed ∧ t.numeral.fitsInt ∧ separated false rest

/-- The text does not begin with a digit. -/
def noDigitAhead (rest : List Char) : Prop := ∀ c t, rest = c :: t → isdigit c = false

/-- The character `bad` followed by `rest` cannot start an integer: `bad` is
neither white space nor a digit, and when it is a sign no digit follows it. -/
def startsNoInteger (bad : Char) (rest : List Char) : Prop :=
  isspace bad = false ∧ isdigit bad = false ∧ ((bad = '-' ∨ bad = '+') → noDigitAhead rest)

/-- The entries of the file `0 2`. -/
def shortTokens : List Token :=
  [⟨[], ⟨Sign.unsigned, ['0']⟩⟩, ⟨[' '], ⟨Sign.unsigned, ['2']⟩⟩]

/-- The anchor list of a run that reached the check of the constraints. -/
def Outcome.anchors : Outcome → Option (List Int)
  | Outcome.written _ _ _ fixedVertices => fixedVertices
  | Outcome.lost _ remesh => remesh.FixedClusters
  | _ => none

/-- A mesh of three triangles around point 4. -/
def fanMesh : Mesh :=
  { points := [⟨zero, zero, zero⟩, ⟨one, zero, zero⟩, ⟨zero, one, zero⟩, ⟨one, one, zero⟩,
               ⟨zero, zero, one⟩],
    faces := [⟨0, 1, 4⟩, ⟨1, 3, 4⟩, ⟨3, 2, 4⟩] }

/-- One turn of the option loop written as a single dispatch on the key:
the handler of the first key that matches, and no change for a key that
matches none. -/
def dispatch (env : Env) (key : String) (value : Option String) (st : LoopState) :
    Option LoopState :=
  if key = "-m" then
    (value.bind atoi).map fun n => { st with remesh := { st.remesh with ForceManifold := some n } }
  else if key = "-s" then
    (value.bind atoi).map fun n => { st with subsamplingThreshold := n }
  else if key = "-d" then
    (value.bind atoi).map fun n => { st with display := n }
  else if key = "-np" then
    if env.DOmultithread then
      (value.bind atoi).map fun n =>
        { st with remesh := { st.remesh with NumberOfThreads := some n } }
    else some st
  else if key = "-o" then
    value.map fun v =>
      { st with outputDirectory := some v, remesh := { st.remesh with OutputDirectory := some v } }
  else if key = "-l" then
    value.map fun v => { st with mesh := env.SplitLongEdges st.mesh (env.atof v) }
  else if key = "-w" then
    (value.bind atoi).map fun n =>
      { st with remesh := { st.remesh with WriteToGlobalEnergyLog := some n } }
  else if key = "-p" then
    if env.DOmultithread then
      (value.bind atoi).map fun n => { st with remesh := { st.remesh with PoolingRatio := some n } }
    else some st
  else if key = "-q" then
    (value.bind atoi).map fun n =>
      { st with remesh := { st.remesh with QuadricsOptimizationLevel := some n } }
  else if key = "-cd" then
    value.map fun v => { st with remesh := { st.remesh with InputDensityFile := some v } }
  else if key = "-cmax" then
    value.map fun v =>
      { st with remesh := { st.remesh with MaxCustomDensity := some (env.atof v) } }
  else if key = "-cmin" then
    value.map fun v =>
      { st with remesh := { st.remesh with MinCustomDensity := some (env.atof v) } }
  else if key = "-cf" then
    value.map fun v =>
      { st with remesh :=
        { st.remesh with CustomDensityMultiplicationFactor := some (env.atof v) } }
  else if key = "-b" then
    (value.bind atoi).map fun n => { st with remesh := { st.remesh with BoundaryFixing := some n } }
  else if key = "-fv" then
    value.map fun v => { st with fixedVertices := some (resolveVertexList (env.openFile v)) }
  else if key = "-ft" then
    value.bind fun v =>
      (resolveFaceList st.mesh (env.openFile v)).map fun ids =>
        { st with fixedVertices := some ids }
  else some st

/-- The turns of the option loop on the arguments from position 4 on: the
key of each turn with the value read next to it (`none` for the null pointer
after the last argument). -/
def optionPairs : List String → List (String × Option String)
  | [] => []
  | [key] => [(key, none)]
  | key :: value :: rest => (key, some value) :: optionPairs rest

/-- The turns of the option loop run one after the other. -/
def runPairs (env : Env) : List (String × Option String) → LoopState → Option LoopState
  | [], st => some st
  | (key, value) :: rest, st => (handleOption env key value st).bind (runPairs env rest)

/-- The engine configuration with which `remesh->Remesh()` was called. -/
def Outcome.engine : Outcome → Option Remesher
  | Outcome.written _ _ remesh _ => some remesh
  | Outcome.lost _ remesh => some remesh
  | _ => none

/-- The arguments that write a list of (flag, value) pairs. -/
def commandLine : List (String × String) → List String
  | [] => []
  | (key, value) :: rest => key :: value :: commandLine rest

/-- The value of the last pair with the given flag, if there is one. -/
def lastValue (key : String) : List (String × String) → Option String
  | [] => none
  | (k, v) :: rest =>
    match lastValue key rest with
    | some w => some w
    | none => if k = key then some v else none

/-- An environment for examples with two constraint files: `a.txt` holds
`first`, `b.txt` holds `second`. -/
def twoFileEnv (mesh : Mesh) (first second : String) : Env :=
  { DOmultithread := false,
    CreateFromFile := fun _ => mesh,
    SplitLongEdges := fun m _ => m,
    atof := fun _ => zero,
    cinNumberOfSamples := 500,
    cinGradation := zero,
    openFile := fun name =>
      if name = "a.txt" then some first.data
      else if name = "b.txt" then some second.data else none,
    Remesh := identityRemesh }

/-- The key is one the option loop has a handler for: one of the fourteen
keys that are always compiled, or `-np` or `-p` when the driver is compiled
with `DOmultithread`. -/
def recognized (env : Env) (key : String) : Prop :=
  key = "-m" ∨ key = "-s" ∨ key = "-d" ∨ key = "-o" ∨ key = "-l" ∨ key = "-w" ∨ key = "-q" ∨
  key = "-cd" ∨ key = "-cmax" ∨ key = "-cmin" ∨ key = "-cf" ∨ key = "-b" ∨ key = "-fv" ∨
  key = "-ft" ∨ (env.DOmultithread = true ∧ (key = "-np" ∨ key = "-p"))

instance (env : Env) (key : String) : Decidable (recognized env key) := by
  unfold recognized; infer_instance

/-- The mesh after the edge splittings of the `-l` pairs of the list, in the
order of the list. -/
def splitMesh (env : Env) : List (String × String) → Mesh → Mesh
  | [], mesh => mesh
  | (key, value) :: rest, mesh =>
    splitMesh env rest (if key = "-l" then env.SplitLongEdges mesh (env.atof value) else mesh)

/-- An edge splitting for examples: one point and one triangle are added. -/
def exampleSplit (mesh : Mesh) : Mesh :=
  { points := mesh.points ++ [⟨one, one, zero⟩],
    faces := mesh.faces ++ [⟨1, mesh.points.length, 2⟩] }

/-- An environment for examples in which `-l` adds a point and a triangle to
the mesh; the file `c.txt` holds `constraints`. -/
def splitEnv (mesh : Mesh) (constraints : String) : Env :=
  { DOmultithread := false,
    CreateFromFile := fun _ => mesh,
    SplitLongEdges := fun m _ => exampleSplit m,
    atof := fun _ => zero,
    cinNumberOfSamples := 500,
    cinGradation := zero,
    openFile := fun name => if name = "c.txt" then some constraints.data else none,
    Remesh := identityRemesh }

/-- The option loop of a parser that matches each pair once against the
keys: the single dispatch, turn after turn. -/
def runDispatch (env : Env) : List (String × Option String) → LoopState → Option LoopState
  | [], st => some st
  | (key, value) :: rest, st => (dispatch env key value st).bind (runDispatch env rest)

/-- A statement of the loop body runs no handler: it leaves the variables as
they are, whatever the value. -/
def inert (statement : Option String → LoopState → Option LoopState) : Prop :=
  ∀ value st, statement value st = some st

/-- At most one of the six statements of the loop body (the chain of `-m`,
`-s`, `-d`; the statement `-np`; the chain of `-o`, `-l`, `-w`; the statement
`-p`; the chain of `-q`, `-cd`, `-cmax`, `-cmin`; the chain of `-cf`, `-b`,
`-fv`, `-ft`) runs a handler for the key: five of them are inert. -/
def atMostOneHandler (env : Env) (key : String) : Prop :=
    (inert (optionNP key) ∧ inert (chainOLW env key) ∧ inert (optionP key) ∧
      inert (chainQC env key) ∧ inert (chainCFBF env key)) ∨
    (inert (chainMSD key) ∧ inert (chainOLW env key) ∧ inert (optionP key) ∧
      inert (chainQC env key) ∧ inert (chainCFBF env key)) ∨
    (inert (chainMSD key) ∧ inert (optionNP key) ∧ inert (optionP key) ∧
      inert (chainQC env key) ∧ inert (chainCFBF env key)) ∨
    (inert (chainMSD key) ∧ inert (optionNP key) ∧ inert (chainOLW env key) ∧
      inert (chainQC env key) ∧ inert (chainCFBF env key)) ∨
    (inert (chainMSD key) ∧ inert (optionNP key) ∧ inert (chainOLW env key) ∧
      inert (optionP key) ∧ inert (chainCFBF env key)) ∨
    (inert (chainMSD key) ∧ inert (optionNP key) ∧ inert (chainOLW env key) ∧
      inert (optionP key) ∧ inert (chainQC env key))

/-! ## Lemmas -/

theorem lookup_eq_some_of_valid {α : Type} (xs : List α) (i : Int) (h0 : 0 ≤ i)
    (h1 : i < xs.length) : ∃ a, lookup xs i = some a ∧ a ∈ xs := by
  have hlt : i.toNat < xs.length := by omega
  refine ⟨xs[i.toNat], ?_, List.getElem_mem _⟩
  simp [lookup, h0, List.getElem?_eq_getElem hlt]

theorem markFixed_eq (fixed : List Bool) (v : Int) (h0 : 0 ≤ v) (h1 : v < fixed.length) :
    markFixed fixed v = some (fixed.set v.toNat true) := by
  simp [markFixed, h0, h1]

theorem getD_set_true (fixed : List Bool) (k i : Nat) (hk : k < fixed.length) :
    (fixed.set k true).getD i false = true ↔ (i = k ∨ fixed.getD i false = true) := by
  simp only [List.getD_eq_getElem?_getD, List.getElem?_set]
  by_cases h : k = i
  · subst h; simp [hk]
  · simp [h]; intro h2; exact absurd h2.symm h

theorem markFixed_spec (fixed : List Bool) (v : Int) (h0 : 0 ≤ v) (h1 : v < fixed.length) :
    ∃ fixed2, markFixed fixed v = some fixed2 ∧ fixed2.length = fixed.length ∧
      ∀ i : Nat, fixed2.getD i false = true ↔ ((i : Int) = v ∨ fixed.getD i false = true) := by
  refine ⟨fixed.set v.toNat true, markFixed_eq fixed v h0 h1, by simp, ?_⟩
  intro i
  rw [getD_set_true fixed v.toNat i (by omega)]
  constructor
  · rintro (h | h)
    · left; omega
    · right; exact h
  · rintro (h | h)
    · left; omega
    · right; exact h

theorem markFaces_spec (mesh : Mesh) (hwf : mesh.wellFormed) :
    ∀ (ids : List Int) (fixed : List Bool), (∀ id ∈ ids, mesh.validFace id) →
      fixed.length = mesh.GetNumberOfPoints →
      ∃ fixed2, markFaces mesh ids fixed = some fixed2 ∧ fixed2.length = fixed.length ∧
        ∀ i : Nat, fixed2.getD i false = true ↔
          (fixed.getD i false = true ∨ cornerOfListed mesh ids (i : Int)) := by
  intro ids
  induction ids with
  | nil =>
    intro fixed _ _
    exact ⟨fixed, rfl, rfl, fun i => by simp [cornerOfListed]⟩
  | cons id rest ih =>
    intro fixed hids hlen
    have hid := hids id (List.mem_cons_self _ _)
    obtain ⟨f, hf, hfmem⟩ := lookup_eq_some_of_valid mesh.faces id hid.1 hid.2
    obtain ⟨hv1, hv2, hv3⟩ := hwf f hfmem
    unfold Mesh.validVertex at hv1 hv2 hv3
    obtain ⟨a3, ha3, hl3, hs3⟩ := markFixed_spec fixed f.v3 hv3.1 (by omega)
    obtain ⟨a2, ha2, hl2, hs2⟩ := markFixed_spec a3 f.v2 hv2.1 (by omega)
    obtain ⟨a1, ha1, hl1, hs1⟩ := markFixed_spec a2 f.v1 hv1.1 (by omega)
    obtain ⟨r, hr, hlr, hsr⟩ := ih a1 (fun x hx => hids x (List.mem_cons_of_mem _ hx))
      (by omega)
    refine ⟨r, ?_, by omega, ?_⟩
    · have hf2 : mesh.GetFaceVertices id = some f := hf
      simp only [markFaces, hf2, ha3, ha2, ha1, hr]
    · intro i
      rw [hsr i, hs1 i, hs2 i, hs3 i]
      have hf2 : mesh.GetFaceVertices id = some f := hf
      constructor
      · rintro ((h | h | h | h) | ⟨x, hx, g, hg, hc⟩)
        · exact Or.inr ⟨id, List.mem_cons_self _ _, f, hf2, Or.inl h⟩
        · exact Or.inr ⟨id, List.mem_cons_self _ _, f, hf2, Or.inr (Or.inl h)⟩
        · exact Or.inr ⟨id, List.mem_cons_self _ _, f, hf2, Or.inr (Or.inr h)⟩
        · exact Or.inl h
        · exact Or.inr ⟨x, List.mem_cons_of_mem _ hx, g, hg, hc⟩
      · rintro (h | ⟨x, hx, g, hg, hc⟩)
        · exact Or.inl (Or.inr (Or.inr (Or.inr h)))
        · rcases List.mem_cons.mp hx with hx | hx
          · subst hx
            rw [hf2] at hg
            cases hg
            rcases hc with hc | hc | hc
            · exact Or.inl (Or.inl hc)
            · exact Or.inl (Or.inr (Or.inl hc))
            · exact Or.inl (Or.inr (Or.inr (Or.inl hc)))
          · exact Or.inr ⟨x, hx, g, hg, hc⟩

theorem collectFixed_sorted (fixed : List Bool) :
    (collectFixed fixed).Pairwise (fun a b => a < b) := by
  unfold collectFixed
  rw [List.pairwise_map]
  apply List.Pairwise.filter
  exact (List.pairwise_lt_range _).imp (fun h => Int.ofNat_lt.mpr h)

theorem mem_collectFixed (fixed : List Bool) (v : Int) :
    v ∈ collectFixed fixed ↔ ∃ i : Nat, i < fixed.length ∧ fixed.getD i false = true ∧ v = i := by
  unfold collectFixed
  simp only [List.mem_map, List.mem_filter, List.mem_range]
  constructor
  · rintro ⟨i, ⟨h1, h2⟩, h3⟩
    exact ⟨i, h1, h2, h3.symm⟩
  · rintro ⟨i, h1, h2, h3⟩
    exact ⟨i, ⟨h1, h2⟩, h3.symm⟩

theorem getD_replicate_false (n i : Nat) : (List.replicate n false).getD i false = false := by
  simp only [List.getD_eq_getElem?_getD, List.getElem?_replicate]
  split <;> rfl

theorem cornerOfListed_valid (mesh : Mesh) (hwf : mesh.wellFormed) (ids : List Int) (v : Int)
    (h : cornerOfListed mesh ids v) : mesh.validVertex v := by
  obtain ⟨id, _, f, hf, hc⟩ := h
  have hmem : f ∈ mesh.faces := by
    unfold Mesh.GetFaceVertices lookup at hf
    split at hf
    · exact List.get?_mem hf
    · cases hf
  obtain ⟨h1, h2, h3⟩ := hwf f hmem
  rcases hc with hc | hc | hc <;> subst hc <;> assumption

/-- The anchor list of `-ft` on a well-formed mesh and valid face
identifiers: it exists, it is strictly increasing, and it holds exactly the
corners of the listed faces. -/
theorem resolveFaceList_spec (mesh : Mesh) (content : Option (List Char))
    (hwf : mesh.wellFormed) (hids : ∀ id ∈ readStream content, mesh.validFace id) :
    ∃ anchors, resolveFaceList mesh content = some anchors ∧
      anchors.Pairwise (fun a b => a < b) ∧
      ∀ v : Int, v ∈ anchors ↔ cornerOfListed mesh (readStream content) v := by
  obtain ⟨fixed, hm, hlen, hspec⟩ := markFaces_spec mesh hwf (readStream content)
    (List.replicate mesh.GetNumberOfPoints false) hids (by simp)
  refine ⟨collectFixed fixed, by simp [resolveFaceList, hm], collectFixed_sorted fixed, ?_⟩
  intro v
  rw [mem_collectFixed]
  constructor
  · rintro ⟨i, _, hi, rfl⟩
    rcases (hspec i).mp hi with h | h
    · rw [getD_replicate_false] at h; cases h
    · exact h
  · intro h
    have hv := cornerOfListed_valid mesh hwf _ v h
    unfold Mesh.validVertex at hv
    refine ⟨v.toNat, by simp at hlen; omega, ?_, by omega⟩
    apply (hspec v.toNat).mpr
    right
    have : ((v.toNat : Nat) : Int) = v := by omega
    rw [this]; exact h

theorem coordinatesMatch_iff (c1 c2 : Coords) :
    coordinatesMatch c1 c2 = true ↔ coordsEqual c1 c2 := by
  simp [coordinatesMatch, coordsEqual, List.range_succ, Coords.get, and_assoc]

theorem checkFrom_spec (mesh mesh2 : Mesh) :
    ∀ (ids : List Int) (i : Nat), (∀ v ∈ ids, mesh.validVertex v) →
      i + ids.length ≤ mesh2.GetNumberOfPoints →
      (checkFrom mesh mesh2 i ids = CheckResult.checked ↔
        ∀ k v, ids.get? k = some v → vertexKept mesh mesh2 v (i + k)) ∧
      (∀ k v, ids.get? k = some v → ¬ vertexKept mesh mesh2 v (i + k) →
        (∀ j w, j < k → ids.get? j = some w → vertexKept mesh mesh2 w (i + j)) →
        checkFrom mesh mesh2 i ids = CheckResult.lost v) := by
  intro ids
  induction ids with
  | nil =>
    intro i _ _
    simp [checkFrom]
  | cons a rest ih =>
    intro i hin hout
    have ha := hin a (List.mem_cons_self _ _)
    obtain ⟨c1, hc1, _⟩ := lookup_eq_some_of_valid mesh.points a ha.1 ha.2
    have hi : ((i : Nat) : Int) < mesh2.points.length := by
      simp only [List.length_cons, Mesh.GetNumberOfPoints] at hout; omega
    obtain ⟨c2, hc2, _⟩ := lookup_eq_some_of_valid mesh2.points (i : Int) (by omega) hi
    have hc1g : mesh.GetPointCoordinates a = some c1 := hc1
    have hc2g : mesh2.GetPointCoordinates (i : Int) = some c2 := hc2
    have hkept : vertexKept mesh mesh2 a i ↔ coordinatesMatch c1 c2 = true := by
      rw [coordinatesMatch_iff]
      constructor
      · rintro ⟨d1, d2, h1, h2, h3⟩
        rw [hc1g] at h1; rw [hc2g] at h2
        cases h1; cases h2; exact h3
      · intro h; exact ⟨c1, c2, hc1g, hc2g, h⟩
    obtain ⟨ih1, ih2⟩ := ih (i + 1) (fun v hv => hin v (List.mem_cons_of_mem _ hv))
      (by simp only [List.length_cons] at hout; omega)
    have hstep : checkFrom mesh mesh2 i (a :: rest) =
        if coordinatesMatch c1 c2 then checkFrom mesh mesh2 (i + 1) rest
        else CheckResult.lost a := by
      simp only [checkFrom, hc1g, hc2g]
    constructor
    · rw [hstep]
      constructor
      · intro h k v hk
        by_cases hm : coordinatesMatch c1 c2 = true
        · rw [if_pos hm] at h
          cases k with
          | zero =>
            simp at hk; subst hk
            exact hkept.mpr hm
          | succ k =>
            have := ih1.mp h k v (by simpa using hk)
            rw [show i + (k + 1) = i + 1 + k by omega]; exact this
        · rw [if_neg hm] at h; cases h
      · intro h
        have h0 := hkept.mp (h 0 a (by simp))
        rw [if_pos h0]
        apply ih1.mpr
        intro k v hk
        have := h (k + 1) v (by simpa using hk)
        rw [show i + 1 + k = i + (k + 1) by omega]; exact this
    · intro k v hk hnot hbefore
      rw [hstep]
      cases k with
      | zero =>
        simp at hk; subst hk
        have : ¬ coordinatesMatch c1 c2 = true := fun h => hnot (hkept.mpr h)
        rw [if_neg this]
      | succ k =>
        have h0 : coordinatesMatch c1 c2 = true :=
          hkept.mp (hbefore 0 a (by omega) (by simp))
        rw [if_pos h0]
        apply ih2 k v (by simpa using hk)
        · rw [show i + 1 + k = i + (k + 1) by omega]; exact hnot
        · intro j w hj hw
          have := hbefore (j + 1) w (by omega) (by simpa using hw)
          rw [show i + 1 + j = i + (j + 1) by omega]; exact this

theorem checkConstraints_spec (mesh mesh2 : Mesh) (ids : List Int)
    (hin : ∀ v ∈ ids, mesh.validVertex v) (hout : ids.length ≤ mesh2.GetNumberOfPoints) :
    (checkConstraints mesh mesh2 ids = CheckResult.checked ↔
      ∀ i, i < ids.length → anchorKept mesh mesh2 ids i) ∧
    (∀ i v, ids.get? i = some v → ¬ anchorKept mesh mesh2 ids i →
      (∀ j, j < i → anchorKept mesh mesh2 ids j) →
      checkConstraints mesh mesh2 ids = CheckResult.lost v) := by
  obtain ⟨h1, h2⟩ := checkFrom_spec mesh mesh2 ids 0 hin (by omega)
  simp only [Nat.zero_add] at h1 h2
  constructor
  · rw [checkConstraints, h1]
    constructor
    · intro h i hi
      exact ⟨ids[i], by simp [List.getElem?_eq_getElem hi], h i _ (by simp [List.getElem?_eq_getElem hi])⟩
    · intro h k v hk
      have hlt : k < ids.length := by
        rw [List.get?_eq_getElem?] at hk
        exact (List.getElem?_eq_some_iff.mp hk).1
      obtain ⟨w, hw, hkept⟩ := h k hlt
      rw [hk] at hw; cases hw; exact hkept
  · intro i v hi hnot hbefore
    apply h2 i v hi
    · intro h; exact hnot ⟨v, hi, h⟩
    · intro j w hj hw
      obtain ⟨u, hu, hkept⟩ := hbefore j hj
      rw [hw] at hu; cases hu; exact hkept


theorem Double.eq_self (a : Double) (h : a.isNaN = false) : Double.eq a a = true := by
  simp [Double.eq, h]

theorem coordsEqual_self (c : Coords) (h : c.noNaN) : coordsEqual c c :=
  ⟨Double.eq_self _ h.1, Double.eq_self _ h.2.1, Double.eq_self _ h.2.2⟩

theorem decimalValue_fold (ds : List Char) (acc : Nat) :
    ds.foldl (fun a c => a * 10 + digitValue c) acc =
      acc * 10 ^ ds.length + Nat.ofDigits 10 (ds.map digitValue).reverse := by
  induction ds generalizing acc with
  | nil => simp
  | cons c t ih =>
    simp only [List.foldl_cons, List.map_cons, List.reverse_cons, List.length_cons]
    rw [ih, Nat.ofDigits_append, Nat.ofDigits_singleton]
    simp only [List.length_reverse, List.length_map]
    ring

theorem decimalValue_eq (ds : List Char) :
    decimalValue ds = Nat.ofDigits 10 (ds.map digitValue).reverse := by
  unfold decimalValue
  rw [decimalValue_fold]
  simp

theorem isdigit_not_isspace (c : Char) (h : isdigit c = true) : isspace c = false := by
  simp only [isdigit, Bool.and_eq_true, decide_eq_true_eq] at h
  simp only [isspace, Bool.or_eq_false_iff, beq_eq_false_iff_ne, ne_eq, Bool.and_eq_false_imp,
    decide_eq_true_eq, decide_eq_false_iff_not, not_le]
  omega

theorem isdigit_not_sign (c : Char) (h : isdigit c = true) : c ≠ '-' ∧ c ≠ '+' := by
  simp only [isdigit, Bool.and_eq_true, decide_eq_true_eq] at h
  constructor <;> (intro hc; subst hc; revert h; decide)

theorem takeWhile_digits (ds rest : List Char) (hd : ∀ c ∈ ds, isdigit c = true)
    (hr : noDigitAhead rest) : (ds ++ rest).takeWhile isdigit = ds := by
  rw [List.takeWhile_append_of_pos hd]
  cases rest with
  | nil => simp
  | cons c t => simp [List.takeWhile_cons, hr c t rfl]

theorem dropWhile_digits (ds rest : List Char) (hd : ∀ c ∈ ds, isdigit c = true)
    (hr : noDigitAhead rest) : (ds ++ rest).dropWhile isdigit = rest := by
  rw [List.dropWhile_append_of_pos hd]
  cases rest with
  | nil => simp
  | cons c t => simp [List.dropWhile_cons, hr c t rfl]

theorem takeSign_numeral (n : Numeral) (hn : n.wellFormed) (rest : List Char) :
    takeSign (n.text ++ rest) = (decide (n.sign = Sign.minus), n.digits ++ rest) := by
  obtain ⟨hne, hd⟩ := hn
  unfold Numeral.text
  cases hs : n.sign with
  | unsigned =>
    cases hds : n.digits with
    | nil => exact absurd hds hne
    | cons c t =>
      have hc := isdigit_not_sign c (hd c (by simp [hds]))
      simp [Sign.text, takeSign, hc.1, hc.2]
  | plus => simp [Sign.text, takeSign]
  | minus => simp [Sign.text, takeSign]

theorem numeral_text_head (n : Numeral) (hn : n.wellFormed) (rest : List Char) :
    ∃ c t, n.text ++ rest = c :: t ∧ isspace c = false := by
  obtain ⟨hne, hd⟩ := hn
  unfold Numeral.text
  cases hs : n.sign with
  | unsigned =>
    cases hds : n.digits with
    | nil => exact absurd hds hne
    | cons c t =>
      exact ⟨c, t ++ rest, by simp [Sign.text], isdigit_not_isspace c (hd c (by simp [hds]))⟩
  | plus => exact ⟨'+', n.digits ++ rest, by simp [Sign.text], by decide⟩
  | minus => exact ⟨'-', n.digits ++ rest, by simp [Sign.text], by decide⟩

theorem scanInteger_token (t : Token) (rest : List Char)
    (hsp : ∀ c ∈ t.space, isspace c = true) (hn : t.numeral.wellFormed)
    (hr : noDigitAhead rest) :
    scanInteger (t.space ++ t.numeral.text ++ rest) = some (t.numeral.value, rest) := by
  have hdrop : (t.space ++ t.numeral.text ++ rest).dropWhile isspace = t.numeral.text ++ rest := by
    rw [List.append_assoc, List.dropWhile_append_of_pos hsp]
    obtain ⟨c, u, hcu, hc⟩ := numeral_text_head t.numeral hn rest
    rw [hcu]
    simp [List.dropWhile_cons, hc]
  unfold scanInteger
  simp only [hdrop, takeSign_numeral t.numeral hn rest, takeWhile_digits _ _ hn.2 hr,
    dropWhile_digits _ _ hn.2 hr]
  have hne : t.numeral.digits.isEmpty = false := by
    cases h : t.numeral.digits with
    | nil => exact absurd h hn.1
    | cons _ _ => rfl
  simp only [hne, Bool.false_eq_true, if_false, decimalValue_eq]
  unfold Numeral.value
  cases t.numeral.sign <;> simp

theorem isspace_not_isdigit (c : Char) (h : isspace c = true) : isdigit c = false := by
  cases hd : isdigit c with
  | false => rfl
  | true => rw [isdigit_not_isspace c hd] at h; cases h

theorem takeSign_length (s : List Char) : (takeSign s).2.length ≤ s.length := by
  cases s with
  | nil => simp [takeSign]
  | cons c t =>
    simp only [takeSign]
    split
    · simp
    · split <;> simp

theorem dropWhile_length_le {α : Type} (p : α → Bool) (l : List α) :
    (l.dropWhile p).length ≤ l.length := (List.dropWhile_sublist p).length_le

theorem scanInteger_length (s : List Char) (v : Int) (rest : List Char)
    (h : scanInteger s = some (v, rest)) : rest.length < s.length := by
  unfold scanInteger at h
  simp only at h
  split at h
  · cases h
  · rename_i hne
    simp only [Option.some.injEq, Prod.mk.injEq] at h
    have h1 := takeSign_length (s.dropWhile isspace)
    have h2 := dropWhile_length_le isspace s
    have h3 := congrArg List.length
      (List.takeWhile_append_dropWhile isdigit (takeSign (s.dropWhile isspace)).2)
    rw [List.length_append] at h3
    have h4 : 0 < ((takeSign (s.dropWhile isspace)).2.takeWhile isdigit).length := by
      cases hl : (takeSign (s.dropWhile isspace)).2.takeWhile isdigit with
      | nil => rw [hl] at hne; simp at hne
      | cons _ _ => simp
    rw [← h.2]
    omega

theorem extractInt_length (s : List Char) (v : Int) (rest : List Char)
    (h : extractInt s = some (v, rest)) : rest.length < s.length := by
  unfold extractInt at h
  split at h
  · cases h
  · rename_i w r hs
    split at h
    · cases h; exact scanInteger_length s _ _ hs
    · cases h

theorem readIdsFuel_adequate : ∀ (n f1 f2 : Nat) (s : List Char), s.length ≤ n →
    s.length < f1 → s.length < f2 → readIdsFuel f1 s = readIdsFuel f2 s := by
  intro n
  induction n with
  | zero =>
    intro f1 f2 s hn h1 h2
    cases f1 with
    | zero => omega
    | succ f1 =>
      cases f2 with
      | zero => omega
      | succ f2 =>
        simp only [readIdsFuel]
        cases he : extractInt s with
        | none => rfl
        | some p =>
          obtain ⟨v, rest⟩ := p
          have := extractInt_length s v rest he
          omega
  | succ n ih =>
    intro f1 f2 s hn h1 h2
    cases f1 with
    | zero => omega
    | succ f1 =>
      cases f2 with
      | zero => omega
      | succ f2 =>
        simp only [readIdsFuel]
        cases he : extractInt s with
        | none => rfl
        | some p =>
          obtain ⟨v, rest⟩ := p
          have := extractInt_length s v rest he
          simp only
          rw [ih f1 f2 rest (by omega) (by omega) (by omega)]

theorem readIdsFuel_enough (fuel : Nat) (s : List Char) (h : s.length < fuel) :
    readIdsFuel fuel s = readIds s :=
  readIdsFuel_adequate s.length fuel (s.length + 1) s (Nat.le_refl _) h (by omega)

/-- The reading loop unfolds by one extraction: more fuel than the length of
the text changes nothing. -/
theorem readIds_eq (s : List Char) :
    readIds s = match extractInt s with
      | none => []
      | some (id, rest) => id :: readIds rest := by
  have h : readIds s = readIdsFuel (s.length + 1) s := rfl
  rw [h, readIdsFuel]
  cases he : extractInt s with
  | none => rfl
  | some p =>
    obtain ⟨v, rest⟩ := p
    have := extractInt_length s v rest he
    simp only
    rw [readIdsFuel_enough s.length rest this]

theorem extractInt_token (t : Token) (rest : List Char)
    (hsp : ∀ c ∈ t.space, isspace c = true) (hn : t.numeral.wellFormed)
    (hfit : t.numeral.fitsInt) (hr : noDigitAhead rest) :
    extractInt (t.space ++ t.numeral.text ++ rest) = some (t.numeral.value, rest) := by
  unfold extractInt
  rw [scanInteger_token t rest hsp hn hr]
  exact if_pos hfit

theorem noDigitAhead_tokens (toks : List Token) (trail : List Char)
    (hs : separated false toks) (ht : noDigitAhead trail) :
    noDigitAhead (tokensText toks ++ trail) := by
  intro c u hcu
  cases toks with
  | nil =>
    simp only [tokensText, List.nil_append] at hcu
    exact ht c u hcu
  | cons t rest =>
    obtain ⟨hsp, hne, _⟩ := hs
    have hne2 := hne rfl
    simp only [tokensText] at hcu
    cases hsp2 : t.space with
    | nil => exact absurd hsp2 hne2
    | cons d ds =>
      rw [hsp2] at hcu
      simp only [List.cons_append, List.cons.injEq] at hcu
      exact isspace_not_isdigit c (hsp c (by rw [hsp2, ← hcu.1]; simp))

theorem readIds_tokens (toks : List Token) (trail : List Char) (ht : noDigitAhead trail) :
    ∀ first, separated first toks →
      readIds (tokensText toks ++ trail) = (toks.map fun t => t.numeral.value) ++ readIds trail := by
  induction toks with
  | nil =>
    intro _ _
    simp [tokensText]
  | cons t rest ih =>
    intro first hs
    obtain ⟨hsp, _, hn, hfit, hrest⟩ := hs
    rw [readIds_eq]
    have hr := noDigitAhead_tokens rest trail hrest ht
    simp only [tokensText, List.append_assoc]
    rw [← List.append_assoc, extractInt_token t _ hsp hn hfit hr]
    simp only [List.map_cons, List.cons_append]
    rw [ih false hrest]

theorem noDigitAhead_junk (sp : List Char) (bad : Char) (rest : List Char)
    (hsp : ∀ c ∈ sp, isspace c = true) (hbad : startsNoInteger bad rest) :
    noDigitAhead (sp ++ bad :: rest) := by
  intro c t hct
  cases sp with
  | nil =>
    simp only [List.nil_append, List.cons.injEq] at hct
    rw [← hct.1]; exact hbad.2.1
  | cons d ds =>
    simp only [List.cons_append, List.cons.injEq] at hct
    exact isspace_not_isdigit c (hsp c (by rw [← hct.1]; simp))

theorem readIds_junk (sp : List Char) (bad : Char) (rest : List Char)
    (hsp : ∀ c ∈ sp, isspace c = true) (hbad : startsNoInteger bad rest) :
    readIds (sp ++ bad :: rest) = [] := by
  obtain ⟨hns, hnd, hsign⟩ := hbad
  have hdrop : (sp ++ bad :: rest).dropWhile isspace = bad :: rest := by
    rw [List.dropWhile_append_of_pos hsp]
    simp [List.dropWhile_cons, hns]
  have hscan : scanInteger (sp ++ bad :: rest) = none := by
    unfold scanInteger
    simp only [hdrop, takeSign]
    by_cases h1 : bad = '-'
    · have hr := hsign (Or.inl h1)
      cases rest with
      | nil => simp [h1]
      | cons c t => simp [h1, List.takeWhile_cons, hr c t rfl]
    · by_cases h2 : bad = '+'
      · have hr := hsign (Or.inr h2)
        cases rest with
        | nil => simp [h2]
        | cons c t => simp [h2, List.takeWhile_cons, hr c t rfl]
      · simp [h1, h2, List.takeWhile_cons, hnd]
  rw [readIds_eq]
  simp [extractInt, hscan]

/-- Reading stops at the first text that starts no integer: the values of
the numerals before it are read, nothing after it is. -/
theorem readIds_stops (toks : List Token) (sp : List Char) (bad : Char) (rest : List Char)
    (hsep : separated true toks) (hsp : ∀ c ∈ sp, isspace c = true)
    (hbad : startsNoInteger bad rest) :
    readIds (tokensText toks ++ (sp ++ bad :: rest)) = toks.map fun t => t.numeral.value := by
  rw [readIds_tokens toks _ (noDigitAhead_junk sp bad rest hsp hbad) true hsep,
    readIds_junk sp bad rest hsp hbad]
  simp

theorem handleOption_fv (env : Env) (file : String) (st : LoopState) :
    handleOption env "-fv" (some file) st =
      some { st with fixedVertices := some (readStream (env.openFile file)) } := by
  simp [handleOption, chainMSD, optionNP, chainOLW, optionP, chainQC, chainCFBF, resolveVertexList]

theorem handleOption_ft (env : Env) (file : String) (st : LoopState) :
    handleOption env "-ft" (some file) st =
      match resolveFaceList st.mesh (env.openFile file) with
      | none => none
      | some ids => some { st with fixedVertices := some ids } := by
  simp [handleOption, chainMSD, optionNP, chainOLW, optionP, chainQC, chainCFBF]

theorem handleOption_eq_dispatch (env : Env) (key : String) (value : Option String)
    (st : LoopState) : handleOption env key value st = dispatch env key value st := by
  by_cases h1 : key = "-m"
  · subst h1
    cases h : value.bind atoi <;>
      simp [handleOption, dispatch, chainMSD, optionNP, chainOLW, optionP, chainQC, chainCFBF, h]
  by_cases h2 : key = "-s"
  · subst h2
    cases h : value.bind atoi <;>
      simp [handleOption, dispatch, chainMSD, optionNP, chainOLW, optionP, chainQC, chainCFBF, h]
  by_cases h3 : key = "-d"
  · subst h3
    cases h : value.bind atoi <;>
      simp [handleOption, dispatch, chainMSD, optionNP, chainOLW, optionP, chainQC, chainCFBF, h]
  by_cases h4 : key = "-np"
  · subst h4
    cases h : value.bind atoi <;> cases hd : env.DOmultithread <;>
      simp [handleOption, dispatch, chainMSD, optionNP, chainOLW, optionP, chainQC, chainCFBF, h,
        hd]
  by_cases h5 : key = "-o"
  · subst h5
    cases value <;>
      simp [handleOption, dispatch, chainMSD, optionNP, chainOLW, optionP, chainQC, chainCFBF]
  by_cases h6 : key = "-l"
  · subst h6
    cases value <;>
      simp [handleOption, dispatch, chainMSD, optionNP, chainOLW, optionP, chainQC, chainCFBF]
  by_cases h7 : key = "-w"
  · subst h7
    cases h : value.bind atoi <;>
      simp [handleOption, dispatch, chainMSD, optionNP, chainOLW, optionP, chainQC, chainCFBF, h]
  by_cases h8 : key = "-p"
  · subst h8
    cases h : value.bind atoi <;> cases hd : env.DOmultithread <;>
      simp [handleOption, dispatch, chainMSD, optionNP, chainOLW, optionP, chainQC, chainCFBF, h,
        hd]
  by_cases h9 : key = "-q"
  · subst h9
    cases h : value.bind atoi <;>
      simp [handleOption, dispatch, chainMSD, optionNP, chainOLW, optionP, chainQC, chainCFBF, h]
  by_cases h10 : key = "-cd"
  · subst h10
    cases value <;>
      simp [handleOption, dispatch, chainMSD, optionNP, chainOLW, optionP, chainQC, chainCFBF]
  by_cases h11 : key = "-cmax"
  · subst h11
    cases value <;>
      simp [handleOption, dispatch, chainMSD, optionNP, chainOLW, optionP, chainQC, chainCFBF]
  by_cases h12 : key = "-cmin"
  · subst h12
    cases value <;>
      simp [handleOption, dispatch, chainMSD, optionNP, chainOLW, optionP, chainQC, chainCFBF]
  by_cases h13 : key = "-cf"
  · subst h13
    cases value <;>
      simp [handleOption, dispatch, chainMSD, optionNP, chainOLW, optionP, chainQC, chainCFBF]
  by_cases h14 : key = "-b"
  · subst h14
    cases h : value.bind atoi <;>
      simp [handleOption, dispatch, chainMSD, optionNP, chainOLW, optionP, chainQC, chainCFBF, h]
  by_cases h15 : key = "-fv"
  · subst h15
    cases value <;>
      simp [handleOption, dispatch, chainMSD, optionNP, chainOLW, optionP, chainQC, chainCFBF]
  by_cases h16 : key = "-ft"
  · subst h16
    cases value with
    | none =>
      simp [handleOption, dispatch, chainMSD, optionNP, chainOLW, optionP, chainQC, chainCFBF]
    | some v =>
      cases h : resolveFaceList st.mesh (env.openFile v) <;>
      simp [handleOption, dispatch, chainMSD, optionNP, chainOLW, optionP, chainQC, chainCFBF, h]
  simp [handleOption, dispatch, chainMSD, optionNP, chainOLW, optionP, chainQC, chainCFBF,
    h1, h2, h3, h4, h5, h6, h7, h8, h9, h10, h11, h12, h13, h14, h15, h16]

theorem optionLoop_eq_runPairs (env : Env) (argv : List String) :
    ∀ (fuel argumentsIndex : Nat) (st : LoopState), argv.length - argumentsIndex < fuel →
      optionLoop env argv fuel argumentsIndex st =
        runPairs env (optionPairs (argv.drop argumentsIndex)) st := by
  intro fuel
  induction fuel with
  | zero => intro i st h; omega
  | succ fuel ih =>
    intro i st h
    by_cases hi : i < argv.length
    · have hdrop : argv.drop i = argv[i] :: argv.drop (i + 1) := List.drop_eq_getElem_cons hi
      have hkey : argv.get? i = some argv[i] := by simp [List.getElem?_eq_getElem hi]
      by_cases hi2 : i + 1 < argv.length
      · have hdrop2 : argv.drop (i + 1) = argv[i + 1] :: argv.drop (i + 2) :=
          List.drop_eq_getElem_cons hi2
        have hval : argv.get? (i + 1) = some argv[i + 1] := by
          simp [List.getElem?_eq_getElem hi2]
        rw [hdrop, hdrop2]
        simp only [optionLoop, hi, if_true, hkey, hval, optionPairs, runPairs]
        cases hh : handleOption env argv[i] (some argv[i + 1]) st with
        | none => rfl
        | some st2 =>
          simp only [Option.bind_some]
          exact ih (i + 2) st2 (by omega)
      · have hnil : argv.drop (i + 1) = [] := List.drop_eq_nil_of_le (by omega)
        have hval : argv.get? (i + 1) = none := by
          simp only [List.get?_eq_getElem?]
          exact List.getElem?_eq_none (by omega)
        rw [hdrop, hnil]
        simp only [optionLoop, hi, if_true, hkey, hval, optionPairs, runPairs]
        cases hh : handleOption env argv[i] none st with
        | none => rfl
        | some st2 =>
          simp only [Option.bind_some]
          rw [ih (i + 2) st2 (by omega), List.drop_eq_nil_of_le (by omega)]
          rfl
    · have hnil : argv.drop i = [] := List.drop_eq_nil_of_le (by omega)
      rw [hnil]
      simp [optionLoop, hi, optionPairs, runPairs]

/-- The function `main` with its loop written as the run of its turns. -/
theorem main_eq (env : Env) (argv : List String) :
    main env argv =
      match argv.get? 1 with
      | none => Outcome.usage
      | some filename =>
        if 5000 ≤ filename.length then Outcome.undefined
        else
          match numberOfSamples env argv with
          | none => Outcome.undefined
          | some n =>
            match runPairs env (optionPairs (argv.drop 4))
                (initialState (env.CreateFromFile filename)) with
            | none => Outcome.undefined
            | some st => finish env st (configure st n (gradation env argv)) := by
  unfold main
  cases argv.get? 1 with
  | none => rfl
  | some filename =>
    simp only
    rw [optionLoop_eq_runPairs env argv _ 4 _ (by omega)]

theorem finish_engine (env : Env) (st : LoopState) (r r2 : Remesher)
    (h : (finish env st r).engine = some r2) : r2 = r := by
  unfold finish at h
  simp only at h
  split at h
  · simp [Outcome.engine] at h
  · simp only [Outcome.engine, Option.some.injEq] at h; exact h.symm
  · split at h
    · simp [Outcome.engine] at h
    · simp only [Outcome.engine, Option.some.injEq] at h; exact h.symm

/-- The run of `main`, stage by stage, when it reaches the engine. -/
theorem main_engine (env : Env) (argv : List String) (r : Remesher)
    (h : (main env argv).engine = some r) :
    ∃ filename n st, argv.get? 1 = some filename ∧ filename.length < 5000 ∧
      numberOfSamples env argv = some n ∧
      runPairs env (optionPairs (argv.drop 4)) (initialState (env.CreateFromFile filename)) =
        some st ∧
      r = configure st n (gradation env argv) ∧ main env argv = finish env st r := by
  rw [main_eq] at h ⊢
  cases h1 : argv.get? 1 with
  | none => rw [h1] at h; simp [Outcome.engine] at h
  | some filename =>
    rw [h1] at h
    simp only at h ⊢
    by_cases hlen : 5000 ≤ filename.length
    · rw [if_pos hlen] at h; simp [Outcome.engine] at h
    · rw [if_neg hlen] at h ⊢
      cases h2 : numberOfSamples env argv with
      | none => rw [h2] at h; simp [Outcome.engine] at h
      | some n =>
        rw [h2] at h
        simp only at h ⊢
        cases h3 : runPairs env (optionPairs (argv.drop 4))
            (initialState (env.CreateFromFile filename)) with
        | none => rw [h3] at h; simp [Outcome.engine] at h
        | some st =>
          rw [h3] at h
          simp only at h ⊢
          have hr := finish_engine env st _ r h
          exact ⟨filename, n, st, rfl, by omega, rfl, h3, hr, by rw [hr]⟩

/-- The key of a turn is one of the sixteen keys of the option loop, or none
of them. -/
theorem key_cases (key : String) :
    key = "-m" ∨ key = "-s" ∨ key = "-d" ∨ key = "-np" ∨ key = "-o" ∨ key = "-l" ∨ key = "-w" ∨
    key = "-p" ∨ key = "-q" ∨ key = "-cd" ∨ key = "-cmax" ∨ key = "-cmin" ∨ key = "-cf" ∨
    key = "-b" ∨ key = "-fv" ∨ key = "-ft" ∨
    (key ≠ "-m" ∧ key ≠ "-s" ∧ key ≠ "-d" ∧ key ≠ "-np" ∧ key ≠ "-o" ∧ key ≠ "-l" ∧ key ≠ "-w" ∧
     key ≠ "-p" ∧ key ≠ "-q" ∧ key ≠ "-cd" ∧ key ≠ "-cmax" ∧ key ≠ "-cmin" ∧ key ≠ "-cf" ∧
     key ≠ "-b" ∧ key ≠ "-fv" ∧ key ≠ "-ft") := by
  by_cases h1 : key = "-m"; · simp [h1]
  by_cases h2 : key = "-s"; · simp [h2]
  by_cases h3 : key = "-d"; · simp [h3]
  by_cases h4 : key = "-np"; · simp [h4]
  by_cases h5 : key = "-o"; · simp [h5]
  by_cases h6 : key = "-l"; · simp [h6]
  by_cases h7 : key = "-w"; · simp [h7]
  by_cases h8 : key = "-p"; · simp [h8]
  by_cases h9 : key = "-q"; · simp [h9]
  by_cases h10 : key = "-cd"; · simp [h10]
  by_cases h11 : key = "-cmax"; · simp [h11]
  by_cases h12 : key = "-cmin"; · simp [h12]
  by_cases h13 : key = "-cf"; · simp [h13]
  by_cases h14 : key = "-b"; · simp [h14]
  by_cases h15 : key = "-fv"; · simp [h15]
  by_cases h16 : key = "-ft"; · simp [h16]
  simp [h1, h2, h3, h4, h5, h6, h7, h8, h9, h10, h11, h12, h13, h14, h15, h16]

theorem dispatch_unrecognized (env : Env) (key : String) (value : Option String)
    (st : LoopState)
    (h : key ≠ "-m" ∧ key ≠ "-s" ∧ key ≠ "-d" ∧ key ≠ "-np" ∧ key ≠ "-o" ∧ key ≠ "-l" ∧
      key ≠ "-w" ∧ key ≠ "-p" ∧ key ≠ "-q" ∧ key ≠ "-cd" ∧ key ≠ "-cmax" ∧ key ≠ "-cmin" ∧
      key ≠ "-cf" ∧ key ≠ "-b" ∧ key ≠ "-fv" ∧ key ≠ "-ft") :
    dispatch env key value st = some st := by
  obtain ⟨h1, h2, h3, h4, h5, h6, h7, h8, h9, h10, h11, h12, h13, h14, h15, h16⟩ := h
  simp [dispatch, h1, h2, h3, h4, h5, h6, h7, h8, h9, h10, h11, h12, h13, h14, h15, h16]

theorem handleOption_settings (env : Env) (key : String) (value : Option String)
    (st st1 : LoopState) (h : handleOption env key value st = some st1) :
    (if key = "-s" then value.bind atoi = some st1.subsamplingThreshold
      else st1.subsamplingThreshold = st.subsamplingThreshold) ∧
    (if key = "-d" then value.bind atoi = some st1.display else st1.display = st.display) ∧
    (if key = "-m" then value.bind atoi = st1.remesh.ForceManifold ∧
        st1.remesh.ForceManifold ≠ none
      else st1.remesh.ForceManifold = st.remesh.ForceManifold) ∧
    (if key = "-o" then value = st1.outputDirectory ∧ st1.outputDirectory ≠ none
      else st1.outputDirectory = st.outputDirectory) ∧
    (if key = "-fv" ∨ key = "-ft" then st1.fixedVertices ≠ none
      else st1.fixedVertices = st.fixedVertices) ∧
    st1.remesh.FixedClusters = st.remesh.FixedClusters ∧
    st1.remesh.AnchorItems = st.remesh.AnchorItems := by
  rw [handleOption_eq_dispatch] at h
  rcases key_cases key with k | k | k | k | k | k | k | k | k | k | k | k | k | k | k | k | k
  case inr.inr.inr.inr.inr.inr.inr.inr.inr.inr.inr.inr.inr.inr.inr.inr =>
    rw [dispatch_unrecognized env key value st k] at h
    obtain ⟨h1, h2, h3, h4, h5, h6, h7, h8, h9, h10, h11, h12, h13, h14, h15, h16⟩ := k
    cases h
    simp [h1, h2, h3, h5, h15, h16]
  all_goals
    subst k
    simp only [dispatch, String.reduceEq, if_true, if_false] at h
    first
    | (simp only [Option.map_eq_some'] at h
       obtain ⟨a, ha, rfl⟩ := h
       simp [ha])
    | (simp only [Option.bind_eq_some, Option.map_eq_some'] at h
       obtain ⟨a, ha, b, hb, rfl⟩ := h
       simp)
    | (by_cases hd : env.DOmultithread = true <;>
        simp only [hd, if_true, if_false, Option.map_eq_some'] at h <;>
        (obtain ⟨a, ha, rfl⟩ := h; simp))

theorem runPairs_cons (env : Env) (key : String) (value : Option String)
    (rest : List (String × Option String)) (st0 st : LoopState)
    (h : runPairs env ((key, value) :: rest) st0 = some st) :
    ∃ st1, handleOption env key value st0 = some st1 ∧ runPairs env rest st1 = some st := by
  simp only [runPairs, Option.bind_eq_some] at h
  exact h

theorem runPairs_settings (env : Env) :
    ∀ (pairs : List (String × String)) (st0 st : LoopState),
      runPairs env (pairs.map fun p => (p.1, some p.2)) st0 = some st →
      (match lastValue "-s" pairs with
        | some v => atoi v
        | none => some st0.subsamplingThreshold) = some st.subsamplingThreshold ∧
      (match lastValue "-d" pairs with
        | some v => atoi v
        | none => some st0.display) = some st.display ∧
      (match lastValue "-m" pairs with
        | some v => atoi v
        | none => st0.remesh.ForceManifold) = st.remesh.ForceManifold := by
  intro pairs
  induction pairs with
  | nil =>
    intro st0 st h
    simp only [List.map_nil, runPairs, Option.some.injEq] at h
    subst h
    simp [lastValue]
  | cons p rest ih =>
    intro st0 st h
    obtain ⟨k, v⟩ := p
    obtain ⟨st1, h1, h2⟩ := runPairs_cons env k (some v) _ st0 st h
    obtain ⟨i1, i2, i3⟩ := ih st1 st h2
    obtain ⟨s1, s2, s3, _, _, _, _⟩ := handleOption_settings env k (some v) st0 st1 h1
    simp only [lastValue]
    refine ⟨?_, ?_, ?_⟩
    · cases hl : lastValue "-s" rest with
      | some w => rw [hl] at i1; exact i1
      | none =>
        rw [hl] at i1
        simp only [Option.some.injEq] at i1
        by_cases hk : k = "-s"
        · rw [if_pos hk] at s1 ⊢
          rw [← i1]; exact s1
        · rw [if_neg hk] at s1 ⊢
          simp only [Option.some.injEq]
          rw [← i1, s1]
    · cases hl : lastValue "-d" rest with
      | some w => rw [hl] at i2; exact i2
      | none =>
        rw [hl] at i2
        simp only [Option.some.injEq] at i2
        by_cases hk : k = "-d"
        · rw [if_pos hk] at s2 ⊢
          rw [← i2]; exact s2
        · rw [if_neg hk] at s2 ⊢
          simp only [Option.some.injEq]
          rw [← i2, s2]
    · cases hl : lastValue "-m" rest with
      | some w => rw [hl] at i3; exact i3
      | none =>
        rw [hl] at i3
        simp only at i3
        by_cases hk : k = "-m"
        · rw [if_pos hk] at s3 ⊢
          rw [← i3]; exact s3.1
        · rw [if_neg hk] at s3 ⊢
          simp only
          rw [← i3, s3]

theorem optionPairs_commandLine (pairs : List (String × String)) :
    optionPairs (commandLine pairs) = pairs.map fun p => (p.1, some p.2) := by
  induction pairs with
  | nil => rfl
  | cons p rest ih =>
    obtain ⟨k, v⟩ := p
    simp only [commandLine, optionPairs, List.map_cons, ih]

theorem runPairs_engine_frame (env : Env) :
    ∀ (ps : List (String × Option String)) (st0 st : LoopState),
      runPairs env ps st0 = some st →
      st.remesh.FixedClusters = st0.remesh.FixedClusters ∧
      st.remesh.AnchorItems = st0.remesh.AnchorItems := by
  intro ps
  induction ps with
  | nil =>
    intro st0 st h
    simp only [runPairs, Option.some.injEq] at h
    subst h
    exact ⟨rfl, rfl⟩
  | cons p rest ih =>
    intro st0 st h
    obtain ⟨k, v⟩ := p
    obtain ⟨st1, h1, h2⟩ := runPairs_cons env k v _ st0 st h
    obtain ⟨_, _, _, _, _, s6, s7⟩ := handleOption_settings env k v st0 st1 h1
    obtain ⟨i1, i2⟩ := ih st1 st h2
    exact ⟨i1.trans s6, i2.trans s7⟩

theorem configure_settings (st : LoopState) (n : Int) (g : Double) :
    (configure st n g).SubsamplingThreshold = some st.subsamplingThreshold ∧
    (configure st n g).Display = some st.display ∧
    (configure st n g).ForceManifold = st.remesh.ForceManifold ∧
    (configure st n g).Input = some st.mesh ∧
    (configure st n g).Gradation = some g := by
  unfold configure
  cases st.fixedVertices <;> by_cases hd : st.display ≠ 0 <;> simp [hd]

theorem configure_clusters_some (st : LoopState) (n : Int) (g : Double) (ids : List Int)
    (h : st.fixedVertices = some ids) :
    (configure st n g).FixedClusters = some ids ∧
    (configure st n g).NumberOfClusters = some (n + ids.length) ∧
    (configure st n g).AnchorItems = pinClusters 0 ids := by
  unfold configure
  rw [h]
  simp

theorem configure_clusters_none (st : LoopState) (n : Int) (g : Double)
    (h : st.fixedVertices = none) :
    (configure st n g).FixedClusters = st.remesh.FixedClusters ∧
    (configure st n g).NumberOfClusters = some n ∧
    (configure st n g).AnchorItems = st.remesh.AnchorItems := by
  unfold configure
  rw [h]
  by_cases hd : st.display ≠ 0 <;> simp [hd]

/-- With anchors in range the check of the constraints ends in one of two
ways: every anchor is kept and the check succeeds, or some anchor is not kept
and a vertex is reported lost. -/
theorem checkConstraints_total (mesh mesh2 : Mesh) (ids : List Int)
    (hin : ∀ v ∈ ids, mesh.validVertex v) (hout : ids.length ≤ mesh2.GetNumberOfPoints) :
    (checkConstraints mesh mesh2 ids = CheckResult.checked ∧
      ∀ i, i < ids.length → anchorKept mesh mesh2 ids i) ∨
    (∃ v, checkConstraints mesh mesh2 ids = CheckResult.lost v) ∧
      ∃ i, i < ids.length ∧ ¬ anchorKept mesh mesh2 ids i := by
  obtain ⟨h1, h2⟩ := checkConstraints_spec mesh mesh2 ids hin hout
  by_cases hall : ∀ i, i < ids.length → anchorKept mesh mesh2 ids i
  · exact Or.inl ⟨h1.mpr hall, hall⟩
  · right
    have hex : ∃ i, i < ids.length ∧ ¬ anchorKept mesh mesh2 ids i := by
      by_contra hne
      apply hall
      intro i hi
      by_contra hk
      exact hne ⟨i, hi, hk⟩
    refine ⟨?_, hex⟩
    classical
    have hmin := Nat.find_spec hex
    have hbefore : ∀ j, j < Nat.find hex → anchorKept mesh mesh2 ids j := by
      intro j hj
      by_contra hk
      exact Nat.find_min hex hj ⟨by omega, hk⟩
    exact ⟨ids[Nat.find hex], h2 (Nat.find hex) _
      (by simp [List.getElem?_eq_getElem hmin.1]) hmin.2 hbefore⟩

theorem main_of_stages (env : Env) (argv : List String) (filename : String) (n : Int)
    (st : LoopState) (hfile : argv.get? 1 = some filename) (hshort : filename.length < 5000)
    (hn : numberOfSamples env argv = some n)
    (hloop : optionLoop env argv (argv.length + 1) 4
      (initialState (env.CreateFromFile filename)) = some st) :
    main env argv = finish env st (configure st n (gradation env argv)) := by
  have hlen : ¬ 5000 ≤ filename.length := by omega
  unfold main
  rw [hfile]
  simp only [hlen, if_false, hn, hloop]

theorem main_usage (env : Env) (argv : List String) (h : argv.length ≤ 1) :
    main env argv = Outcome.usage := by
  have hnone : argv.get? 1 = none := by
    simp only [List.get?_eq_getElem?]
    exact List.getElem?_eq_none h
  unfold main
  rw [hnone]

theorem realFileName_room (outputDirectory : Option String)
    (hroom : ∀ d, outputDirectory = some d → d.length + "simplification.ply".length < 5000) :
    ∃ realFile, realFileName outputDirectory = some realFile := by
  cases outputDirectory with
  | none => exact ⟨_, rfl⟩
  | some d =>
    refine ⟨d ++ "simplification.ply", ?_⟩
    simp only [realFileName]
    rw [if_pos (hroom d rfl)]

theorem sorted_ext (l1 l2 : List Int) (h1 : l1.Pairwise (fun a b => a < b))
    (h2 : l2.Pairwise (fun a b => a < b)) (h : ∀ v, v ∈ l1 ↔ v ∈ l2) : l1 = l2 := by
  have d1 : l1.Nodup := h1.imp (fun h => Int.ne_of_lt h)
  have d2 : l2.Nodup := h2.imp (fun h => Int.ne_of_lt h)
  exact List.eq_of_perm_of_sorted ((List.perm_ext_iff_of_nodup d1 d2).mpr h) h1 h2

theorem cornerOfListed_congr (mesh : Mesh) (ids1 ids2 : List Int)
    (h : ∀ id, id ∈ ids1 ↔ id ∈ ids2) (v : Int) :
    cornerOfListed mesh ids1 v ↔ cornerOfListed mesh ids2 v := by
  constructor
  · rintro ⟨id, hid, f, hf, hc⟩
    exact ⟨id, (h id).mp hid, f, hf, hc⟩
  · rintro ⟨id, hid, f, hf, hc⟩
    exact ⟨id, (h id).mpr hid, f, hf, hc⟩

theorem handleOption_unrecognized (env : Env) (key : String) (value : Option String)
    (st : LoopState) (h : ¬ recognized env key) : handleOption env key value st = some st := by
  rw [handleOption_eq_dispatch]
  unfold recognized at h
  simp only [not_or, not_and] at h
  obtain ⟨h1, h2, h3, h4, h5, h6, h7, h8, h9, h10, h11, h12, h13, h14, h15⟩ := h
  by_cases hd : env.DOmultithread = true
  · have h16 := h15 hd
    simp [dispatch, h1, h2, h3, h4, h5, h6, h7, h8, h9, h10, h11, h12, h13, h14, h16.1, h16.2]
  · simp [dispatch, h1, h2, h3, h4, h5, h6, h7, h8, h9, h10, h11, h12, h13, h14, hd]

theorem runPairs_append (env : Env) (ps qs : List (String × Option String)) (st : LoopState) :
    runPairs env (ps ++ qs) st = (runPairs env ps st).bind (runPairs env qs) := by
  induction ps generalizing st with
  | nil => simp [runPairs]
  | cons p rest ih =>
    obtain ⟨k, v⟩ := p
    simp only [List.cons_append, runPairs]
    cases handleOption env k v st with
    | none => rfl
    | some st1 => exact ih st1

/-- The run of `main` on the arguments of a list of pairs depends on the
pairs only through the run of the turns of the loop. -/
theorem main_commandLine (env : Env) (a0 a1 a2 a3 : String) (pairs : List (String × String)) :
    main env (a0 :: a1 :: a2 :: a3 :: commandLine pairs) =
      if 5000 ≤ a1.length then Outcome.undefined
      else
        match atoi a2 with
        | none => Outcome.undefined
        | some n =>
          match runPairs env (pairs.map fun p => (p.1, some p.2))
              (initialState (env.CreateFromFile a1)) with
          | none => Outcome.undefined
          | some st => finish env st (configure st n (env.atof a3)) := by
  rw [main_eq]
  simp only [List.get?_eq_getElem?, List.getElem?_cons_succ, List.getElem?_cons_zero,
    numberOfSamples, gradation, List.drop_succ_cons, List.drop_zero, optionPairs_commandLine]

theorem pinClusters_mem : ∀ (ids : List Int) (s i : Nat) (v : Int),
    (i, v) ∈ pinClusters s ids ↔ s ≤ i ∧ ids.get? (i - s) = some v := by
  intro ids
  induction ids with
  | nil => intro s i v; simp [pinClusters]
  | cons a rest ih =>
    intro s i v
    simp only [pinClusters, List.mem_cons, Prod.mk.injEq, ih]
    constructor
    · rintro (⟨h1, h2⟩ | ⟨h1, h2⟩)
      · subst h1 h2; simp
      · refine ⟨by omega, ?_⟩
        have : i - s = (i - (s + 1)) + 1 := by omega
        rw [this]; simpa using h2
    · rintro ⟨h1, h2⟩
      by_cases hi : i = s
      · subst hi
        simp at h2
        exact Or.inl ⟨rfl, h2.symm⟩
      · right
        refine ⟨by omega, ?_⟩
        have : i - s = (i - (s + 1)) + 1 := by omega
        rw [this] at h2; simpa using h2

theorem pinClusters_fst : ∀ (ids : List Int) (s : Nat),
    (pinClusters s ids).map Prod.fst = (List.range ids.length).map (fun i => s + i) := by
  intro ids
  induction ids with
  | nil => intro s; simp [pinClusters]
  | cons a rest ih =>
    intro s
    simp only [pinClusters, List.map_cons, List.length_cons, List.range_succ_eq_map, ih,
      List.map_map, Nat.add_zero, List.cons.injEq, true_and]
    apply List.map_congr_left
    intro i _
    simp only [Function.comp]
    omega

theorem handleOption_mesh (env : Env) (key : String) (value : Option String)
    (st st1 : LoopState) (h : handleOption env key value st = some st1) :
    if key = "-l" then ∃ v, value = some v ∧ st1.mesh = env.SplitLongEdges st.mesh (env.atof v)
    else st1.mesh = st.mesh := by
  rw [handleOption_eq_dispatch] at h
  rcases key_cases key with k | k | k | k | k | k | k | k | k | k | k | k | k | k | k | k | k
  case inr.inr.inr.inr.inr.inr.inr.inr.inr.inr.inr.inr.inr.inr.inr.inr =>
    rw [dispatch_unrecognized env key value st k] at h
    obtain ⟨h1, h2, h3, h4, h5, h6, h7, h8, h9, h10, h11, h12, h13, h14, h15, h16⟩ := k
    cases h
    simp [h6]
  all_goals
    subst k
    simp only [dispatch, String.reduceEq, if_true, if_false] at h
    first
    | (simp only [Option.map_eq_some'] at h
       obtain ⟨a, ha, rfl⟩ := h
       simp [ha])
    | (simp only [Option.bind_eq_some, Option.map_eq_some'] at h
       obtain ⟨a, ha, b, hb, rfl⟩ := h
       simp)
    | (by_cases hd : env.DOmultithread = true <;>
        simp only [hd, if_true, if_false, Option.map_eq_some'] at h <;>
        (obtain ⟨a, ha, rfl⟩ := h; simp))

theorem runPairs_mesh (env : Env) :
    ∀ (pairs : List (String × String)) (st0 st : LoopState),
      runPairs env (pairs.map fun p => (p.1, some p.2)) st0 = some st →
      st.mesh = splitMesh env pairs st0.mesh := by
  intro pairs
  induction pairs with
  | nil =>
    intro st0 st h
    simp only [List.map_nil, runPairs, Option.some.injEq] at h
    subst h; rfl
  | cons p rest ih =>
    intro st0 st h
    obtain ⟨k, v⟩ := p
    obtain ⟨st1, h1, h2⟩ := runPairs_cons env k (some v) _ st0 st h
    have hm := handleOption_mesh env k (some v) st0 st1 h1
    rw [ih st1 st h2]
    simp only [splitMesh]
    by_cases hk : k = "-l"
    · rw [if_pos hk] at hm ⊢
      obtain ⟨w, hw, hm2⟩ := hm
      cases hw
      rw [hm2]
    · rw [if_neg hk] at hm ⊢
      rw [hm]

theorem runPairs_keep_fixed (env : Env) :
    ∀ (pairs : List (String × String)) (st0 st : LoopState),
      (∀ p ∈ pairs, p.1 ≠ "-fv" ∧ p.1 ≠ "-ft") →
      runPairs env (pairs.map fun p => (p.1, some p.2)) st0 = some st →
      st.fixedVertices = st0.fixedVertices := by
  intro pairs
  induction pairs with
  | nil =>
    intro st0 st _ h
    simp only [List.map_nil, runPairs, Option.some.injEq] at h
    subst h; rfl
  | cons p rest ih =>
    intro st0 st hno h
    obtain ⟨k, v⟩ := p
    obtain ⟨st1, h1, h2⟩ := runPairs_cons env k (some v) _ st0 st h
    obtain ⟨_, _, _, _, s5, _, _⟩ := handleOption_settings env k (some v) st0 st1 h1
    have hk := hno (k, v) (List.mem_cons_self _ _)
    have hk2 : ¬ (k = "-fv" ∨ k = "-ft") := by
      rintro (h | h)
      · exact hk.1 h
      · exact hk.2 h
    rw [if_neg hk2] at s5
    rw [ih st1 st (fun p hp => hno p (List.mem_cons_of_mem _ hp)) h2, s5]

/-- The run of the turns around one pair: the turns before it, its own
turn, the turns after it. -/
theorem runPairs_around (env : Env) (p1 p2 : List (String × String)) (key value : String)
    (st0 st : LoopState)
    (h : runPairs env ((p1 ++ (key, value) :: p2).map fun p => (p.1, some p.2)) st0 = some st) :
    ∃ st1 st2, runPairs env (p1.map fun p => (p.1, some p.2)) st0 = some st1 ∧
      handleOption env key (some value) st1 = some st2 ∧
      runPairs env (p2.map fun p => (p.1, some p.2)) st2 = some st := by
  simp only [List.map_append, List.map_cons, runPairs_append, Option.bind_eq_some] at h
  obtain ⟨st1, h1, h2⟩ := h
  obtain ⟨st2, h3, h4⟩ := runPairs_cons env key (some value) _ st1 st h2
  exact ⟨st1, st2, h1, h3, h4⟩

theorem main_commandLine_engine (env : Env) (a0 a1 a2 a3 : String)
    (pairs : List (String × String)) (r : Remesher)
    (h : (main env (a0 :: a1 :: a2 :: a3 :: commandLine pairs)).engine = some r) :
    ∃ n st, atoi a2 = some n ∧
      runPairs env (pairs.map fun p => (p.1, some p.2)) (initialState (env.CreateFromFile a1)) =
        some st ∧
      r = configure st n (env.atof a3) ∧
      main env (a0 :: a1 :: a2 :: a3 :: commandLine pairs) = finish env st r := by
  obtain ⟨filename, n, st, hf, _, hn, hrun, hr, hmain⟩ := main_engine env _ r h
  simp only [List.get?_eq_getElem?, List.getElem?_cons_succ, List.getElem?_cons_zero,
    Option.some.injEq] at hf
  subst hf
  simp only [List.drop_succ_cons, List.drop_zero, optionPairs_commandLine] at hrun
  simp only [numberOfSamples, List.get?_eq_getElem?, List.getElem?_cons_succ,
    List.getElem?_cons_zero] at hn
  simp only [gradation, List.get?_eq_getElem?, List.getElem?_cons_succ,
    List.getElem?_cons_zero] at hr
  exact ⟨n, st, hn, hrun, hr, hmain⟩

theorem runPairs_eq_runDispatch (env : Env) (ps : List (String × Option String))
    (st : LoopState) : runPairs env ps st = runDispatch env ps st := by
  induction ps generalizing st with
  | nil => rfl
  | cons p rest ih =>
    obtain ⟨k, v⟩ := p
    simp only [runPairs, runDispatch, handleOption_eq_dispatch]
    cases dispatch env k v st with
    | none => rfl
    | some st1 => exact ih st1

/-- For every key at most one of the six statements of the loop body (the
four chains, `-np`, `-p`) runs a handler. -/
theorem one_handler (env : Env) (key : String) : atMostOneHandler env key := by
  unfold atMostOneHandler
  rcases key_cases key with k | k | k | k | k | k | k | k | k | k | k | k | k | k | k | k | k
  case inr.inr.inr.inr.inr.inr.inr.inr.inr.inr.inr.inr.inr.inr.inr.inr =>
    obtain ⟨h1, h2, h3, h4, h5, h6, h7, h8, h9, h10, h11, h12, h13, h14, h15, h16⟩ := k
    left
    refine ⟨?_, ?_, ?_, ?_, ?_⟩ <;> intro value st <;>
      simp [optionNP, chainOLW, optionP, chainQC, chainCFBF, h1, h2, h3, h4, h5, h6, h7, h8, h9,
        h10, h11, h12, h13, h14, h15, h16]
  all_goals
    subst k
    first
    | (left
       refine ⟨?_, ?_, ?_, ?_, ?_⟩ <;> intro value st <;>
         simp [chainMSD, optionNP, chainOLW, optionP, chainQC, chainCFBF]
       done)
    | (right; left
       refine ⟨?_, ?_, ?_, ?_, ?_⟩ <;> intro value st <;>
         simp [chainMSD, optionNP, chainOLW, optionP, chainQC, chainCFBF]
       done)
    | (right; right; left
       refine ⟨?_, ?_, ?_, ?_, ?_⟩ <;> intro value st <;>
         simp [chainMSD, optionNP, chainOLW, optionP, chainQC, chainCFBF]
       done)
    | (right; right; right; left
       refine ⟨?_, ?_, ?_, ?_, ?_⟩ <;> intro value st <;>
         simp [chainMSD, optionNP, chainOLW, optionP, chainQC, chainCFBF]
       done)
    | (right; right; right; right; left
       refine ⟨?_, ?_, ?_, ?_, ?_⟩ <;> intro value st <;>
         simp [chainMSD, optionNP, chainOLW, optionP, chainQC, chainCFBF]
       done)
    | (right; right; right; right; right
       refine ⟨?_, ?_, ?_, ?_, ?_⟩ <;> intro value st <;>
         simp [chainMSD, optionNP, chainOLW, optionP, chainQC, chainCFBF])

theorem optionLoopReads_shape (env : Env) (argv : List String) :
    ∀ (fuel i : Nat) (st : LoopState) (j : Nat), j ∈ optionLoopReads env argv fuel i st →
      ∃ t, i + 2 * t < argv.length ∧ (j = i + 2 * t ∨ j = i + 2 * t + 1) := by
  intro fuel
  induction fuel with
  | zero => intro i st j hj; simp [optionLoopReads] at hj
  | succ fuel ih =>
    intro i st j hj
    simp only [optionLoopReads] at hj
    split at hj
    · rename_i hi
      simp only [List.mem_cons] at hj
      rcases hj with hj | hj | hj
      · exact ⟨0, by omega, Or.inl (by omega)⟩
      · exact ⟨0, by omega, Or.inr (by omega)⟩
      · split at hj
        · cases hj
        · split at hj
          · cases hj
          · obtain ⟨t, ht, hjt⟩ := ih (i + 2) _ j hj
            exact ⟨t + 1, by omega, by omega⟩
    · cases hj

theorem optionLoopReads_last (env : Env) (argv : List String) :
    ∀ (fuel i : Nat) (st : LoopState), argv.length - i < fuel → i < argv.length →
      (argv.length - i) % 2 = 1 →
      runPairs env (optionPairs (argv.drop i)).dropLast st ≠ none →
      argv.length ∈ optionLoopReads env argv fuel i st := by
  intro fuel
  induction fuel with
  | zero => intro i st h; omega
  | succ fuel ih =>
    intro i st hfuel hi hodd hrun
    have hkey : argv.get? i = some argv[i] := by simp [List.getElem?_eq_getElem hi]
    simp only [optionLoopReads, hi, if_true, hkey, List.mem_cons]
    by_cases hi2 : i + 1 = argv.length
    · right; left; exact hi2.symm
    · right; right
      have hi1 : i + 1 < argv.length := by omega
      have hi3 : i + 2 < argv.length := by omega
      have hval : argv.get? (i + 1) = some argv[i + 1] := by
        simp [List.getElem?_eq_getElem hi1]
      have hdrop : argv.drop i = argv[i] :: argv[i + 1] :: argv.drop (i + 2) := by
        rw [List.drop_eq_getElem_cons hi, List.drop_eq_getElem_cons hi1]
      have hne : optionPairs (argv.drop (i + 2)) ≠ [] := by
        rw [List.drop_eq_getElem_cons hi3]
        cases argv.drop (i + 2 + 1) <;> simp [optionPairs]
      rw [hdrop] at hrun
      simp only [optionPairs, List.dropLast_cons_of_ne_nil hne, runPairs] at hrun
      rw [hval]
      cases hh : handleOption env argv[i] (some argv[i + 1]) st with
      | none => rw [hh] at hrun; exact absurd rfl hrun
      | some st2 =>
        rw [hh] at hrun
        exact ih (i + 2) st2 (by omega) hi3 (by omega) hrun

theorem optionLoop_short (env : Env) (argv : List String) (st : LoopState)
    (h : argv.length ≤ 4) : optionLoop env argv (argv.length + 1) 4 st = some st := by
  have hlt : ¬ 4 < argv.length := by omega
  simp only [optionLoop, hlt, if_false]

/-! ## The claims -/

/-- C1. The `-ft` branch on a well-formed mesh, when every face identifier
read from the constraint file is a face of the mesh: the turn of the option
loop succeeds and replaces the anchor list by a strictly increasing list
that holds a vertex exactly when it is a corner of one of the listed faces. -/
theorem face_list_resolution (env : Env) (file : String) (st : LoopState)
    (hwf : st.mesh.wellFormed)
    (hids : ∀ id ∈ readStream (env.openFile file), st.mesh.validFace id) :
    ∃ anchors, handleOption env "-ft" (some file) st =
        some { st with fixedVertices := some anchors } ∧
      anchors.Pairwise (fun a b => a < b) ∧
      ∀ v : Int, v ∈ anchors ↔ cornerOfListed st.mesh (readStream (env.openFile file)) v := by
  obtain ⟨anchors, h1, h2, h3⟩ := resolveFaceList_spec st.mesh (env.openFile file) hwf hids
  refine ⟨anchors, ?_, h2, h3⟩
  simp [handleOption, chainMSD, optionNP, chainOLW, optionP, chainQC, chainCFBF, h1]

/-- Witness of C1: the face list `1` on the two-triangle mesh. -/
theorem face_list_resolution_witness :
    ∃ anchors, handleOption (exampleEnv squareMesh "1" identityRemesh) "-ft" (some "c.txt")
        (initialState squareMesh) =
        some { initialState squareMesh with fixedVertices := some anchors } ∧
      anchors.Pairwise (fun a b => a < b) ∧
      ∀ v : Int, v ∈ anchors ↔
        cornerOfListed squareMesh
          (readStream ((exampleEnv squareMesh "1" identityRemesh).openFile "c.txt")) v :=
  face_list_resolution (exampleEnv squareMesh "1" identityRemesh) "c.txt"
    (initialState squareMesh) (by decide) (by decide)

/-- C2. The check of the constraints, for anchors that are vertices of the
input mesh and an output mesh with at least as many points as there are
anchors: it succeeds exactly when at every position `i` input vertex
`anchor[i]` and output vertex `i` have equal (`==`) coordinates; otherwise it
reports `anchor[i]` for the first position `i` that fails, whatever the later
anchors are. -/
theorem constraint_check_first_violation (mesh mesh2 : Mesh) (ids : List Int)
    (hin : ∀ v ∈ ids, mesh.validVertex v) (hout : ids.length ≤ mesh2.GetNumberOfPoints) :
    (checkConstraints mesh mesh2 ids = CheckResult.checked ↔
      ∀ i, i < ids.length → anchorKept mesh mesh2 ids i) ∧
    (∀ i v, ids.get? i = some v → ¬ anchorKept mesh mesh2 ids i →
      (∀ j, j < i → anchorKept mesh mesh2 ids j) →
      checkConstraints mesh mesh2 ids = CheckResult.lost v) :=
  checkConstraints_spec mesh mesh2 ids hin hout

/-- Witness of C2: anchors `2, 1` of the two-triangle mesh against the
triangle mesh as output: position 0 fails first, vertex 2 is reported. -/
theorem constraint_check_first_violation_witness :
    checkConstraints squareMesh triangleMesh [2, 1] = CheckResult.lost 2 :=
  (constraint_check_first_violation squareMesh triangleMesh [2, 1] (by decide) (by decide)).2
    0 2 (by decide) (by decide) (by intro j hj; omega)

/-- C3, counterexample. With an engine that returns its input unchanged the
check fails for the anchor list `1` on the triangle mesh (vertex 1 is
compared with output vertex 0), and the whole run exits with the vertex
lost; it also fails for anchor `0` of a mesh whose vertex 0 has a NaN
coordinate. -/
theorem identity_stub_counterexample :
    triangleMesh.wellFormed ∧ triangleMesh.validVertex 1 ∧
    checkConstraints triangleMesh triangleMesh [1] = CheckResult.lost 1 ∧
    (main (exampleEnv triangleMesh "1" identityRemesh)
      ["acvdq", "mesh.ply", "2", "0", "-fv", "c.txt"]).exitCode = some 1 ∧
    checkConstraints nanMesh nanMesh [0] = CheckResult.lost 0 := by
  decide

/-- C3, amended. With an engine that returns its input unchanged, for
anchors that are vertices of the mesh and no more anchors than points: the
check succeeds exactly when at every position `i` vertex `anchor[i]` and
vertex `i` of the mesh have equal (`==`) coordinates; it does so whenever
`anchor[i] = i` at every position and none of these points has a NaN
coordinate. -/
theorem identity_stub_check (mesh : Mesh) (ids : List Int)
    (hin : ∀ v ∈ ids, mesh.validVertex v) (hlen : ids.length ≤ mesh.GetNumberOfPoints) :
    (checkConstraints mesh mesh ids = CheckResult.checked ↔
      ∀ i, i < ids.length → anchorKept mesh mesh ids i) ∧
    ((∀ i, i < ids.length → ids.get? i = some (i : Int)) →
      (∀ i c, i < ids.length → mesh.points.get? i = some c → c.noNaN) →
      checkConstraints mesh mesh ids = CheckResult.checked) := by
  obtain ⟨h1, _⟩ := checkConstraints_spec mesh mesh ids hin hlen
  refine ⟨h1, ?_⟩
  intro hid hnan
  apply h1.mpr
  intro i hi
  have hlt : i < mesh.points.length := by
    unfold Mesh.GetNumberOfPoints at hlen; omega
  have hget : mesh.GetPointCoordinates (i : Int) = some mesh.points[i] := by
    simp [Mesh.GetPointCoordinates, lookup, List.getElem?_eq_getElem hlt]
  refine ⟨(i : Int), hid i hi, mesh.points[i], mesh.points[i], hget, hget, ?_⟩
  exact coordsEqual_self _ (hnan i _ hi (by simp [List.getElem?_eq_getElem hlt]))

/-- Witness of C3, amended: the anchors `0, 1` on the triangle mesh pass the
check against the mesh itself. -/
theorem identity_stub_check_witness :
    checkConstraints triangleMesh triangleMesh [0, 1] = CheckResult.checked :=
  (identity_stub_check triangleMesh [0, 1] (by decide) (by decide)).2
    (by intro i hi
        have h : i = 0 ∨ i = 1 := by simp at hi; omega
        rcases h with h | h <;> subst h <;> rfl)
    (by intro i c hi hc
        have h : i = 0 ∨ i = 1 := by simp at hi; omega
        rcases h with h | h <;> subst h <;> simp [triangleMesh] at hc <;> subst hc <;>
          (unfold Coords.noNaN; decide))

/-- C4, counterexample. The `-fv` branch on the file `5 12 5 40` and the
triangle mesh (three points) yields the anchor list `5, 12, 5, 40`: the
identifier 5 occurs twice and is no vertex of the mesh. -/
theorem anchor_set_invariant_counterexample :
    handleOption (exampleEnv triangleMesh "5 12 5 40" identityRemesh) "-fv" (some "c.txt")
        (initialState triangleMesh) =
      some { initialState triangleMesh with fixedVertices := some [5, 12, 5, 40] } ∧
    ¬ [(5 : Int), 12, 5, 40].Nodup ∧ ¬ triangleMesh.validVertex 5 := by
  decide

/-- C4, amended. The `-ft` branch, on a well-formed mesh and face
identifiers of the mesh, yields an anchor list without repetition whose
members are all vertices of the mesh; the `-fv` branch yields the integers
read from the file as they are. -/
theorem anchor_set_invariant (env : Env) (file : String) (st : LoopState)
    (hwf : st.mesh.wellFormed)
    (hids : ∀ id ∈ readStream (env.openFile file), st.mesh.validFace id) :
    (∃ anchors, handleOption env "-ft" (some file) st =
        some { st with fixedVertices := some anchors } ∧
      anchors.Nodup ∧ ∀ v ∈ anchors, st.mesh.validVertex v) ∧
    handleOption env "-fv" (some file) st =
      some { st with fixedVertices := some (readStream (env.openFile file)) } := by
  obtain ⟨anchors, h1, h2, h3⟩ := resolveFaceList_spec st.mesh (env.openFile file) hwf hids
  refine ⟨⟨anchors, ?_, ?_, ?_⟩, handleOption_fv env file st⟩
  · rw [handleOption_ft, h1]
  · exact h2.imp (fun h => Int.ne_of_lt h)
  · intro v hv
    exact cornerOfListed_valid st.mesh hwf _ v ((h3 v).mp hv)

/-- Witness of C4, amended: the face list `1 0 1` on the two-triangle mesh. -/
theorem anchor_set_invariant_witness :
    (∃ anchors, handleOption (exampleEnv squareMesh "1 0 1" identityRemesh) "-ft"
        (some "c.txt") (initialState squareMesh) =
        some { initialState squareMesh with fixedVertices := some anchors } ∧
      anchors.Nodup ∧ ∀ v ∈ anchors, squareMesh.validVertex v) ∧
    handleOption (exampleEnv squareMesh "1 0 1" identityRemesh) "-fv" (some "c.txt")
        (initialState squareMesh) =
      some { initialState squareMesh with
        fixedVertices :=
          some (readStream ((exampleEnv squareMesh "1 0 1" identityRemesh).openFile "c.txt")) } :=
  anchor_set_invariant (exampleEnv squareMesh "1 0 1" identityRemesh) "c.txt"
    (initialState squareMesh) (by decide) (by decide)

/-- C8, counterexample. The constraint file `0 x 2` holds the token `x`,
which is no integer. In `-fv` mode the turn of the option loop succeeds with
the anchor list `0`, and the run ends with exit code 0 and its output
written; in `-ft` mode on the two-triangle mesh the run ends the same way
with the corners `0, 1, 2` of face 0 as anchors. -/
theorem invalid_constraint_file_counterexample :
    handleOption (exampleEnv triangleMesh "0 x 2" identityRemesh) "-fv" (some "c.txt")
        (initialState triangleMesh) =
      some { initialState triangleMesh with fixedVertices := some [0] } ∧
    (main (exampleEnv triangleMesh "0 x 2" identityRemesh)
      ["acvdq", "mesh.ply", "2", "0", "-fv", "c.txt"]).exitCode = some 0 ∧
    (main (exampleEnv triangleMesh "0 x 2" identityRemesh)
      ["acvdq", "mesh.ply", "2", "0", "-fv", "c.txt"]).outputFile =
      some ("simplification.ply", triangleMesh) ∧
    (main (exampleEnv squareMesh "0 x 2" identityRemesh)
      ["acvdq", "mesh.ply", "2", "0", "-ft", "c.txt"]).anchors = some [0, 1, 2] ∧
    (main (exampleEnv squareMesh "0 x 2" identityRemesh)
      ["acvdq", "mesh.ply", "2", "0", "-ft", "c.txt"]).exitCode = some 0 := by
  decide

/-- C8, amended. A constraint file that holds a token which is no integer
raises no error: when the file consists of white-space separated integers
followed by a text that starts no integer, reading stops there. In `-fv`
mode the anchor list is the values of the integers in front of it; in `-ft`
mode, on a well-formed mesh and when these values are faces of the mesh, the
anchor list holds exactly the corners of these faces. -/
theorem constraint_file_reading_stops (env : Env) (file : String) (st : LoopState)
    (toks : List Token) (sp : List Char) (bad : Char) (rest : List Char)
    (hfile : env.openFile file = some (tokensText toks ++ (sp ++ bad :: rest)))
    (hsep : separated true toks) (hsp : ∀ c ∈ sp, isspace c = true)
    (hbad : startsNoInteger bad rest) :
    handleOption env "-fv" (some file) st =
      some { st with fixedVertices := some (toks.map fun t => t.numeral.value) } ∧
    (st.mesh.wellFormed → (∀ t ∈ toks, st.mesh.validFace t.numeral.value) →
      ∃ anchors, handleOption env "-ft" (some file) st =
          some { st with fixedVertices := some anchors } ∧
        ∀ v : Int, v ∈ anchors ↔
          cornerOfListed st.mesh (toks.map fun t => t.numeral.value) v) := by
  have hread : readStream (env.openFile file) = toks.map fun t => t.numeral.value := by
    rw [hfile]
    exact readIds_stops toks sp bad rest hsep hsp hbad
  constructor
  · rw [handleOption_fv, hread]
  · intro hwf hvalid
    have hids : ∀ id ∈ readStream (env.openFile file), st.mesh.validFace id := by
      rw [hread]
      intro id hid
      obtain ⟨t, ht, rfl⟩ := List.mem_map.mp hid
      exact hvalid t ht
    obtain ⟨anchors, h1, _, h3⟩ := resolveFaceList_spec st.mesh (env.openFile file) hwf hids
    refine ⟨anchors, ?_, ?_⟩
    · rw [handleOption_ft, h1]
    · intro v
      rw [h3 v, hread]

/-- Witness of C8, amended: the file `0 2 x 1` on the two-triangle mesh with
a third face. -/
theorem constraint_file_reading_stops_witness :
    handleOption (exampleEnv fanMesh "0 2 x 1" identityRemesh) "-fv" (some "c.txt")
        (initialState fanMesh) =
      some { initialState fanMesh with
        fixedVertices := some (shortTokens.map fun t => t.numeral.value) } ∧
    ∃ anchors, handleOption (exampleEnv fanMesh "0 2 x 1" identityRemesh) "-ft"
        (some "c.txt") (initialState fanMesh) =
        some { initialState fanMesh with fixedVertices := some anchors } ∧
      ∀ v : Int, v ∈ anchors ↔
        cornerOfListed (initialState fanMesh).mesh (shortTokens.map fun t => t.numeral.value) v :=
  ⟨(constraint_file_reading_stops (exampleEnv fanMesh "0 2 x 1" identityRemesh) "c.txt"
      (initialState fanMesh) shortTokens [' '] 'x' [' ', '1'] (by decide)
      (by simp [separated, shortTokens, Numeral.wellFormed, Numeral.fitsInt]; decide)
      (by decide) (by simp [startsNoInteger]; decide)).1,
   (constraint_file_reading_stops (exampleEnv fanMesh "0 2 x 1" identityRemesh) "c.txt"
      (initialState fanMesh) shortTokens [' '] 'x' [' ', '1'] (by decide)
      (by simp [separated, shortTokens, Numeral.wellFormed, Numeral.fitsInt]; decide)
      (by decide) (by simp [startsNoInteger]; decide)).2 (by decide) (by decide)⟩

/-- C7, the code at the failing input. With the options `-o out` the output
is written under the name `outsimplification.ply`, which is not the file
`simplification.ply` of the directory `out`. -/
theorem output_path_without_separator (env : Env) :
    (main env ["acvdq", "mesh.ply", "100", "0", "-o", "out"]).outputFile.map Prod.fst =
      some "outsimplification.ply" ∧
    "outsimplification.ply" ≠ "out/simplification.ply" := by
  have hatoi : atoi "100" = some 100 := by decide
  have hname : ¬ 5000 ≤ "mesh.ply".length := by decide
  have hroom : "out".length + "simplification.ply".length < 5000 := by decide
  refine ⟨?_, by decide⟩
  simp [main_eq, numberOfSamples, hatoi, optionPairs, runPairs, handleOption_eq_dispatch,
    dispatch, initialState, finish, realFileName, Outcome.outputFile, hname, hroom]

/-- C10. In every run that reaches the engine on the arguments of a list of
(flag, value) pairs: the subsampling threshold handed to the engine is
`atoi` of the value of the last `-s` pair, or 10 without such a pair; the
display mode is `atoi` of the value of the last `-d` pair, or 0; the
force-manifold setting is `atoi` of the value of the last `-m` pair, and is
left as the engine was created without such a pair. -/
theorem configuration_values (env : Env) (a0 a1 a2 a3 : String)
    (pairs : List (String × String)) (r : Remesher)
    (h : (main env (a0 :: a1 :: a2 :: a3 :: commandLine pairs)).engine = some r) :
    r.SubsamplingThreshold =
      (match lastValue "-s" pairs with
        | some v => atoi v
        | none => some 10) ∧
    r.Display =
      (match lastValue "-d" pairs with
        | some v => atoi v
        | none => some 0) ∧
    r.ForceManifold =
      (match lastValue "-m" pairs with
        | some v => atoi v
        | none => Remesher.New.ForceManifold) := by
  obtain ⟨filename, n, st, _, _, _, hrun, hr, _⟩ := main_engine env _ r h
  simp only [List.drop_succ_cons, List.drop_zero, optionPairs_commandLine] at hrun
  obtain ⟨s1, s2, s3⟩ := runPairs_settings env pairs _ st hrun
  obtain ⟨c1, c2, c3, _, _⟩ := configure_settings st n
    (gradation env (a0 :: a1 :: a2 :: a3 :: commandLine pairs))
  rw [hr, c1, c2, c3]
  exact ⟨s1.symm, s2.symm, s3.symm⟩

/-- Witness of C10: the options `-s 20 -d 1 -m 1` give the threshold 20, the
display mode 1 and force-manifold 1. -/
theorem configuration_values_witness :
    ∃ r, (main (exampleEnv triangleMesh "" identityRemesh)
        ("acvdq" :: "mesh.ply" :: "100" :: "0" ::
          commandLine [("-s", "20"), ("-d", "1"), ("-m", "1")])).engine = some r ∧
      r.SubsamplingThreshold = some 20 ∧ r.Display = some 1 ∧ r.ForceManifold = some 1 :=
  ⟨configure { initialState triangleMesh with
      subsamplingThreshold := 20, display := 1,
      remesh := { Remesher.New with ForceManifold := some 1 } } 100 zero,
    by decide,
    configuration_values (exampleEnv triangleMesh "" identityRemesh) "acvdq" "mesh.ply" "100" "0"
      [("-s", "20"), ("-d", "1"), ("-m", "1")] _ (by decide)⟩

/-- C9. A run without a file argument prints the usage text and returns 0,
and every run that writes its output returns 0. In a run that reaches the
engine with an anchor list (the anchors being vertices of the input mesh,
the output mesh having at least as many points as there are anchors, the
output file name fitting its buffer): the output file is written exactly
when the check of the constraints succeeds; when some anchor is not kept the
process exits with code 1 and nothing is written; when every anchor is kept
the output is written and the exit code is 0. -/
theorem no_output_before_verification (env : Env) (argv : List String) :
    (argv.length ≤ 1 → main env argv = Outcome.usage ∧ (main env argv).exitCode = some 0) ∧
    (∀ realFile output r fv, main env argv = Outcome.written realFile output r fv →
      (main env argv).exitCode = some 0) ∧
    (∀ filename n st ids,
      argv.get? 1 = some filename → filename.length < 5000 →
      numberOfSamples env argv = some n →
      optionLoop env argv (argv.length + 1) 4 (initialState (env.CreateFromFile filename)) =
        some st →
      st.fixedVertices = some ids →
      (∀ v ∈ ids, st.mesh.validVertex v) →
      ids.length ≤ (env.Remesh (configure st n (gradation env argv))).GetNumberOfPoints →
      (∀ d, st.outputDirectory = some d → d.length + "simplification.ply".length < 5000) →
      ((main env argv).outputFile ≠ none ↔
        checkConstraints st.mesh (env.Remesh (configure st n (gradation env argv))) ids =
          CheckResult.checked) ∧
      ((∃ i, i < ids.length ∧
          ¬ anchorKept st.mesh (env.Remesh (configure st n (gradation env argv))) ids i) →
        (main env argv).exitCode = some 1 ∧ (main env argv).outputFile = none) ∧
      ((∀ i, i < ids.length →
          anchorKept st.mesh (env.Remesh (configure st n (gradation env argv))) ids i) →
        (main env argv).exitCode = some 0 ∧ (main env argv).outputFile ≠ none)) := by
  refine ⟨?_, ?_, ?_⟩
  · intro h
    rw [main_usage env argv h]
    exact ⟨rfl, rfl⟩
  · intro realFile output r fv h
    rw [h]; rfl
  · intro filename n st ids hfile hshort hn hloop hfixed hin hout hroom
    rw [main_of_stages env argv filename n st hfile hshort hn hloop]
    obtain ⟨realFile, hreal⟩ := realFileName_room st.outputDirectory hroom
    rcases checkConstraints_total st.mesh
      (env.Remesh (configure st n (gradation env argv))) ids hin hout with
      ⟨hc, hall⟩ | ⟨⟨v, hc⟩, hex⟩
    · have hfin : finish env st (configure st n (gradation env argv)) =
          Outcome.written realFile (env.Remesh (configure st n (gradation env argv)))
            (configure st n (gradation env argv)) st.fixedVertices := by
        simp only [finish, hfixed, hc, hreal]
      rw [hfin, hc]
      refine ⟨by simp [Outcome.outputFile], ?_, ?_⟩
      · rintro ⟨i, hi, hk⟩
        exact absurd (hall i hi) hk
      · intro _
        exact ⟨rfl, by simp [Outcome.outputFile]⟩
    · have hfin : finish env st (configure st n (gradation env argv)) =
          Outcome.lost v (configure st n (gradation env argv)) := by
        simp only [finish, hfixed, hc]
      rw [hfin, hc]
      refine ⟨by simp [Outcome.outputFile], ?_, ?_⟩
      · intro _
        exact ⟨rfl, rfl⟩
      · intro hall
        obtain ⟨i, hi, hk⟩ := hex
        exact absurd (hall i hi) hk

/-- Witness of C9: the help path, and a run whose anchor 1 is lost by an
engine that returns its input. -/
theorem no_output_before_verification_witness :
    (main (exampleEnv triangleMesh "1" identityRemesh) ["acvdq"]).exitCode = some 0 ∧
    (main (exampleEnv triangleMesh "1" identityRemesh)
      ["acvdq", "mesh.ply", "2", "0", "-fv", "c.txt"]).exitCode = some 1 ∧
    (main (exampleEnv triangleMesh "1" identityRemesh)
      ["acvdq", "mesh.ply", "2", "0", "-fv", "c.txt"]).outputFile = none :=
  ⟨((no_output_before_verification (exampleEnv triangleMesh "1" identityRemesh)
      ["acvdq"]).1 (by decide)).2,
   ((no_output_before_verification (exampleEnv triangleMesh "1" identityRemesh)
      ["acvdq", "mesh.ply", "2", "0", "-fv", "c.txt"]).2.2 "mesh.ply" 2
      { initialState triangleMesh with fixedVertices := some [1] } [1]
      (by decide) (by decide) (by decide) (by decide) (by decide) (by decide) (by decide)
      (by intro d hd; cases hd)).2.1
      ⟨0, by decide, by decide⟩⟩

/-- C11. The `-ft` branch on a well-formed mesh, for two constraint files
whose face identifiers are faces of the mesh and form the same set (in any
order, with any repetition): both turns of the option loop give the same
result, an anchor list without repeated vertex. -/
theorem face_list_order_independent (env : Env) (file1 file2 : String) (st : LoopState)
    (hwf : st.mesh.wellFormed)
    (h1 : ∀ id ∈ readStream (env.openFile file1), st.mesh.validFace id)
    (h2 : ∀ id ∈ readStream (env.openFile file2), st.mesh.validFace id)
    (hsame : ∀ id, id ∈ readStream (env.openFile file1) ↔ id ∈ readStream (env.openFile file2)) :
    handleOption env "-ft" (some file1) st = handleOption env "-ft" (some file2) st ∧
    ∃ anchors, handleOption env "-ft" (some file1) st =
        some { st with fixedVertices := some anchors } ∧ anchors.Nodup := by
  obtain ⟨l1, e1, s1, m1⟩ := resolveFaceList_spec st.mesh (env.openFile file1) hwf h1
  obtain ⟨l2, e2, s2, m2⟩ := resolveFaceList_spec st.mesh (env.openFile file2) hwf h2
  have hl : l1 = l2 := by
    apply sorted_ext l1 l2 s1 s2
    intro v
    rw [m1 v, m2 v]
    exact cornerOfListed_congr st.mesh _ _ hsame v
  refine ⟨?_, l1, ?_, s1.imp (fun h => Int.ne_of_lt h)⟩
  · rw [handleOption_ft, handleOption_ft, e1, e2, hl]
  · rw [handleOption_ft, e1]

/-- Witness of C11: the face lists `0 2 1` and `1 0 2 0` on the mesh of
three triangles. -/
theorem face_list_order_independent_witness :
    handleOption (twoFileEnv fanMesh "0 2 1" "1 0 2 0") "-ft" (some "a.txt")
        (initialState fanMesh) =
      handleOption (twoFileEnv fanMesh "0 2 1" "1 0 2 0") "-ft" (some "b.txt")
        (initialState fanMesh) ∧
    ∃ anchors, handleOption (twoFileEnv fanMesh "0 2 1" "1 0 2 0") "-ft" (some "a.txt")
        (initialState fanMesh) =
        some { initialState fanMesh with fixedVertices := some anchors } ∧ anchors.Nodup :=
  face_list_order_independent (twoFileEnv fanMesh "0 2 1" "1 0 2 0") "a.txt" "b.txt"
    (initialState fanMesh) (by decide) (by decide) (by decide)
    (by
      have e1 : readStream ((twoFileEnv fanMesh "0 2 1" "1 0 2 0").openFile "a.txt") =
          [0, 2, 1] := by decide
      have e2 : readStream ((twoFileEnv fanMesh "0 2 1" "1 0 2 0").openFile "b.txt") =
          [1, 0, 2, 0] := by decide
      intro id
      rw [e1, e2]
      simp only [List.mem_cons, List.mem_singleton, List.not_mem_nil, or_false]
      omega)

/-- C12. A pair whose key has no handler is ignored: its turn of the option
loop succeeds and changes nothing, whatever the value (a missing value
included), and the run of `main`
on a list of pairs with such a pair inserted at any place is the run on the
list without it (same engine configuration, mesh, anchors, output and exit
code). The inserted pair is the key together with the one value after it. -/
theorem unrecognized_flag_ignored (env : Env) (a0 a1 a2 a3 key value : String)
    (p1 p2 : List (String × String)) (hkey : ¬ recognized env key) :
    (∀ v st, handleOption env key v st = some st) ∧
    main env (a0 :: a1 :: a2 :: a3 :: commandLine (p1 ++ (key, value) :: p2)) =
      main env (a0 :: a1 :: a2 :: a3 :: commandLine (p1 ++ p2)) := by
  have hturn : ∀ v st, handleOption env key v st = some st :=
    fun v st => handleOption_unrecognized env key v st hkey
  refine ⟨hturn, ?_⟩
  have hrun : ∀ st, runPairs env ((p1 ++ (key, value) :: p2).map fun p => (p.1, some p.2)) st =
      runPairs env ((p1 ++ p2).map fun p => (p.1, some p.2)) st := by
    intro st
    simp only [List.map_append, List.map_cons, runPairs_append, runPairs]
    cases runPairs env (p1.map fun p => (p.1, some p.2)) st with
    | none => rfl
    | some st1 => simp only [Option.some_bind, hturn (some value) st1]
  rw [main_commandLine, main_commandLine, hrun]

/-- Witness of C12: the pair `-zz -s` between `-s 20` and `-d 1`. -/
theorem unrecognized_flag_ignored_witness :
    (∀ v st, handleOption (exampleEnv triangleMesh "" identityRemesh) "-zz" v st = some st) ∧
    main (exampleEnv triangleMesh "" identityRemesh)
        ("acvdq" :: "mesh.ply" :: "100" :: "0" ::
          commandLine ([("-s", "20")] ++ ("-zz", "-s") :: [("-d", "1")])) =
      main (exampleEnv triangleMesh "" identityRemesh)
        ("acvdq" :: "mesh.ply" :: "100" :: "0" ::
          commandLine ([("-s", "20")] ++ [("-d", "1")])) :=
  unrecognized_flag_ignored (exampleEnv triangleMesh "" identityRemesh) "acvdq" "mesh.ply" "100"
    "0" "-zz" "-s" [("-s", "20")] [("-d", "1")] (by decide)

/-- C13. In every run that reaches the engine, with `st` the variables of
`main` after the option loop: when there is an anchor list, the engine's
fixed-cluster list is that list, cluster `i` is pinned to the anchor at
position `i` for every position of the list, the pins are made in the order
of the positions, and no other cluster is pinned; without an anchor list no
cluster is pinned. -/
theorem anchor_registration_order (env : Env) (argv : List String) (r : Remesher)
    (h : (main env argv).engine = some r) :
    ∃ st, main env argv = finish env st r ∧
      (∀ ids, st.fixedVertices = some ids →
        r.FixedClusters = some ids ∧
        (∀ i v, (i, v) ∈ r.AnchorItems ↔ ids.get? i = some v) ∧
        r.AnchorItems.map Prod.fst = List.range ids.length) ∧
      (st.fixedVertices = none → r.AnchorItems = []) := by
  obtain ⟨filename, n, st, _, _, _, hrun, hr, hmain⟩ := main_engine env argv r h
  refine ⟨st, hmain, ?_, ?_⟩
  · intro ids hids
    obtain ⟨c1, _, c3⟩ := configure_clusters_some st n (gradation env argv) ids hids
    rw [hr, c1, c3]
    refine ⟨rfl, ?_, ?_⟩
    · intro i v
      rw [pinClusters_mem]
      simp
    · rw [pinClusters_fst]
      simp
  · intro hnone
    obtain ⟨_, _, c3⟩ := configure_clusters_none st n (gradation env argv) hnone
    rw [hr, c3, (runPairs_engine_frame env _ _ st hrun).2]
    rfl

/-- Witness of C13: the anchors `2 0 2` read with `-fv`. -/
theorem anchor_registration_order_witness :
    (configure { initialState fanMesh with fixedVertices := some [2, 0, 2] } 100
      zero).AnchorItems = [(0, 2), (1, 0), (2, 2)] ∧
    ∃ st, main (exampleEnv fanMesh "2 0 2" identityRemesh)
        ["acvdq", "mesh.ply", "100", "0", "-fv", "c.txt"] =
        finish (exampleEnv fanMesh "2 0 2" identityRemesh) st
          (configure { initialState fanMesh with fixedVertices := some [2, 0, 2] } 100 zero) ∧
      (∀ ids, st.fixedVertices = some ids →
        (configure { initialState fanMesh with fixedVertices := some [2, 0, 2] } 100
          zero).FixedClusters = some ids ∧
        (∀ i v, (i, v) ∈ (configure { initialState fanMesh with
            fixedVertices := some [2, 0, 2] } 100 zero).AnchorItems ↔ ids.get? i = some v) ∧
        (configure { initialState fanMesh with fixedVertices := some [2, 0, 2] } 100
          zero).AnchorItems.map Prod.fst = List.range ids.length) ∧
      (st.fixedVertices = none →
        (configure { initialState fanMesh with fixedVertices := some [2, 0, 2] } 100
          zero).AnchorItems = []) :=
  ⟨by decide,
    anchor_registration_order (exampleEnv fanMesh "2 0 2" identityRemesh)
      ["acvdq", "mesh.ply", "100", "0", "-fv", "c.txt"]
      (configure { initialState fanMesh with fixedVertices := some [2, 0, 2] } 100 zero)
      (by decide)⟩

/-- C14. In every run that reaches the engine on a list of pairs that holds
a pair `-ft file`: the turns before that pair leave the mesh split by the
`-l` pairs in front of it, in their order; the face list is resolved against
that mesh, whatever pairs follow; the loop ends with the mesh split by all
the `-l` pairs of the list; that mesh is the input of the engine and the
mesh the check of the constraints reads. -/
theorem edge_splitting_order (env : Env) (a0 a1 a2 a3 file : String)
    (p1 p2 : List (String × String)) (r : Remesher)
    (h : (main env (a0 :: a1 :: a2 :: a3 ::
      commandLine (p1 ++ ("-ft", file) :: p2))).engine = some r) :
    ∃ st1 ids st,
      runPairs env (p1.map fun p => (p.1, some p.2)) (initialState (env.CreateFromFile a1)) =
        some st1 ∧
      st1.mesh = splitMesh env p1 (env.CreateFromFile a1) ∧
      resolveFaceList (splitMesh env p1 (env.CreateFromFile a1)) (env.openFile file) =
        some ids ∧
      runPairs env (p2.map fun p => (p.1, some p.2)) { st1 with fixedVertices := some ids } =
        some st ∧
      st.mesh = splitMesh env (p1 ++ ("-ft", file) :: p2) (env.CreateFromFile a1) ∧
      r.Input = some st.mesh ∧
      main env (a0 :: a1 :: a2 :: a3 :: commandLine (p1 ++ ("-ft", file) :: p2)) =
        finish env st r := by
  obtain ⟨n, st, _, hrun, hr, hmain⟩ := main_commandLine_engine env a0 a1 a2 a3 _ r h
  obtain ⟨st1, st2, h1, h2, h3⟩ := runPairs_around env p1 p2 "-ft" file _ st hrun
  have hm1 := runPairs_mesh env p1 _ st1 h1
  simp only [initialState] at hm1
  rw [handleOption_ft] at h2
  cases hres : resolveFaceList st1.mesh (env.openFile file) with
  | none => rw [hres] at h2; cases h2
  | some ids =>
    rw [hres] at h2
    simp only [Option.some.injEq] at h2
    subst h2
    refine ⟨st1, ids, st, h1, hm1, by rw [← hm1]; exact hres, h3, ?_, ?_, hmain⟩
    · have := runPairs_mesh env _ _ st hrun
      simpa only [initialState] using this
    · rw [hr]
      exact (configure_settings st n (env.atof a3)).2.2.2.1

/-- Witness of C14: with `-l 2 -ft c.txt` the face 1 that the splitting adds
is resolved: its corners `1, 2, 3` are the anchors. -/
theorem edge_splitting_order_witness :
    resolveFaceList (splitMesh (splitEnv triangleMesh "1") [("-l", "2")]
      ((splitEnv triangleMesh "1").CreateFromFile "mesh.ply"))
      ((splitEnv triangleMesh "1").openFile "c.txt") = some [1, 2, 3] ∧
    ∃ st1 ids st,
      runPairs (splitEnv triangleMesh "1") ([("-l", "2")].map fun p => (p.1, some p.2))
        (initialState ((splitEnv triangleMesh "1").CreateFromFile "mesh.ply")) = some st1 ∧
      st1.mesh = splitMesh (splitEnv triangleMesh "1") [("-l", "2")]
        ((splitEnv triangleMesh "1").CreateFromFile "mesh.ply") ∧
      resolveFaceList (splitMesh (splitEnv triangleMesh "1") [("-l", "2")]
        ((splitEnv triangleMesh "1").CreateFromFile "mesh.ply"))
        ((splitEnv triangleMesh "1").openFile "c.txt") = some ids ∧
      runPairs (splitEnv triangleMesh "1") (([] : List (String × String)).map
        fun p => (p.1, some p.2)) { st1 with fixedVertices := some ids } = some st ∧
      st.mesh = splitMesh (splitEnv triangleMesh "1") ([("-l", "2")] ++ ("-ft", "c.txt") :: [])
        ((splitEnv triangleMesh "1").CreateFromFile "mesh.ply") ∧
      (configure { initialState (exampleSplit triangleMesh) with
        fixedVertices := some [1, 2, 3] } 100 zero).Input = some st.mesh ∧
      main (splitEnv triangleMesh "1") ("acvdq" :: "mesh.ply" :: "100" :: "0" ::
          commandLine ([("-l", "2")] ++ ("-ft", "c.txt") :: [])) =
        finish (splitEnv triangleMesh "1") st
          (configure { initialState (exampleSplit triangleMesh) with
            fixedVertices := some [1, 2, 3] } 100 zero) :=
  ⟨by decide,
    edge_splitting_order (splitEnv triangleMesh "1") "acvdq" "mesh.ply" "100" "0" "c.txt"
      [("-l", "2")] []
      (configure { initialState (exampleSplit triangleMesh) with
        fixedVertices := some [1, 2, 3] } 100 zero) (by decide)⟩

/-- C16. In every run that reaches the engine on a list of pairs whose last
constraint pair is `key file` (`-fv` or `-ft`, with no constraint pair after
it and any pairs, constraint pairs included, before it): the anchor list
handed to the engine and read by the check of the constraints is the one
resolved from that pair alone: for `-fv` the integers of its file, for `-ft`
the corners of the faces of its file in the mesh as split so far. -/
theorem last_constraint_wins (env : Env) (a0 a1 a2 a3 key file : String)
    (p1 p2 : List (String × String)) (r : Remesher)
    (hkey : key = "-fv" ∨ key = "-ft")
    (hlast : ∀ p ∈ p2, p.1 ≠ "-fv" ∧ p.1 ≠ "-ft")
    (h : (main env (a0 :: a1 :: a2 :: a3 ::
      commandLine (p1 ++ (key, file) :: p2))).engine = some r) :
    ∃ ids st,
      (key = "-fv" → ids = resolveVertexList (env.openFile file)) ∧
      (key = "-ft" →
        resolveFaceList (splitMesh env p1 (env.CreateFromFile a1)) (env.openFile file) =
          some ids) ∧
      r.FixedClusters = some ids ∧
      st.fixedVertices = some ids ∧
      main env (a0 :: a1 :: a2 :: a3 :: commandLine (p1 ++ (key, file) :: p2)) =
        finish env st r := by
  obtain ⟨n, st, _, hrun, hr, hmain⟩ := main_commandLine_engine env a0 a1 a2 a3 _ r h
  obtain ⟨st1, st2, h1, h2, h3⟩ := runPairs_around env p1 p2 key file _ st hrun
  have hm1 := runPairs_mesh env p1 _ st1 h1
  simp only [initialState] at hm1
  have hkeep := runPairs_keep_fixed env p2 st2 st hlast h3
  rcases hkey with hk | hk
  · subst hk
    rw [handleOption_fv] at h2
    simp only [Option.some.injEq] at h2
    subst h2
    simp only at hkeep
    refine ⟨readStream (env.openFile file), st, fun _ => rfl, ?_, ?_, hkeep, hmain⟩
    · intro hf; exact absurd hf (by decide)
    · rw [hr, (configure_clusters_some st n (env.atof a3) _ hkeep).1]
  · subst hk
    rw [handleOption_ft] at h2
    cases hres : resolveFaceList st1.mesh (env.openFile file) with
    | none => rw [hres] at h2; cases h2
    | some ids =>
      rw [hres] at h2
      simp only [Option.some.injEq] at h2
      subst h2
      simp only at hkeep
      refine ⟨ids, st, ?_, fun _ => by rw [← hm1]; exact hres, ?_, hkeep, hmain⟩
      · intro hf; exact absurd hf (by decide)
      · rw [hr, (configure_clusters_some st n (env.atof a3) _ hkeep).1]

/-- Witness of C16: `-fv a.txt -s 20 -fv b.txt -d 0` with the files `0 1` and
`3`: the anchor list is `3`. -/
theorem last_constraint_wins_witness :
    resolveVertexList ((twoFileEnv fanMesh "0 1" "3").openFile "b.txt") = [3] ∧
    ∃ ids st,
      ("-fv" = "-fv" → ids = resolveVertexList ((twoFileEnv fanMesh "0 1" "3").openFile "b.txt")) ∧
      ("-fv" = "-ft" →
        resolveFaceList (splitMesh (twoFileEnv fanMesh "0 1" "3")
          [("-fv", "a.txt"), ("-s", "20")]
          ((twoFileEnv fanMesh "0 1" "3").CreateFromFile "mesh.ply"))
          ((twoFileEnv fanMesh "0 1" "3").openFile "b.txt") = some ids) ∧
      (configure { initialState fanMesh with
        fixedVertices := some [3], subsamplingThreshold := 20 } 100 zero).FixedClusters =
        some ids ∧
      st.fixedVertices = some ids ∧
      main (twoFileEnv fanMesh "0 1" "3") ("acvdq" :: "mesh.ply" :: "100" :: "0" ::
          commandLine ([("-fv", "a.txt"), ("-s", "20")] ++ ("-fv", "b.txt") :: [("-d", "0")])) =
        finish (twoFileEnv fanMesh "0 1" "3") st
          (configure { initialState fanMesh with
            fixedVertices := some [3], subsamplingThreshold := 20 } 100 zero) :=
  ⟨by decide,
    last_constraint_wins (twoFileEnv fanMesh "0 1" "3") "acvdq" "mesh.ply" "100" "0" "-fv"
      "b.txt" [("-fv", "a.txt"), ("-s", "20")] [("-d", "0")]
      (configure { initialState fanMesh with
        fixedVertices := some [3], subsamplingThreshold := 20 } 100 zero)
      (Or.inl rfl) (by decide) (by decide)⟩

/-- C15. The body of the option loop, with its four separate chains and two
conditional statements, does for every key and value what a single dispatch
on the key does; for every key at most one of its statements runs a handler;
and the whole loop on any argument vector is the loop of a parser that
matches each pair once against the keys. -/
theorem single_dispatch_equivalence (env : Env) :
    (∀ key value st, handleOption env key value st = dispatch env key value st) ∧
    (∀ key, atMostOneHandler env key) ∧
    (∀ argv st, optionLoop env argv (argv.length + 1) 4 st =
      runDispatch env (optionPairs (argv.drop 4)) st) := by
  refine ⟨handleOption_eq_dispatch env, one_handler env, ?_⟩
  intro argv st
  rw [optionLoop_eq_runPairs env argv _ 4 st (by omega), runPairs_eq_runDispatch]

/-- C17. The indices of `argv` read by the option loop started at position
4. When `argc <= 4` or `argc - 4` is even, every index read is below `argc`.
When `argc > 4` and `argc - 4` is odd, no index above `argc` is read, the
entry at index `argc` is past the last argument, and the loop reads it in
its last turn whenever the turns before the last stay defined. -/
theorem option_reads_in_bounds (env : Env) (argv : List String) (st : LoopState) :
    ((argv.length ≤ 4 ∨ (argv.length - 4) % 2 = 0) →
      ∀ j ∈ optionLoopReads env argv (argv.length + 1) 4 st, j < argv.length) ∧
    ((4 < argv.length ∧ (argv.length - 4) % 2 = 1) →
      (∀ j ∈ optionLoopReads env argv (argv.length + 1) 4 st, j ≤ argv.length) ∧
      argv.get? argv.length = none ∧
      (runPairs env (optionPairs (argv.drop 4)).dropLast st ≠ none →
        argv.length ∈ optionLoopReads env argv (argv.length + 1) 4 st)) := by
  constructor
  · intro hpar j hj
    obtain ⟨t, ht, hjt⟩ := optionLoopReads_shape env argv _ 4 st j hj
    omega
  · rintro ⟨hlen, hodd⟩
    refine ⟨?_, ?_, ?_⟩
    · intro j hj
      obtain ⟨t, ht, hjt⟩ := optionLoopReads_shape env argv _ 4 st j hj
      omega
    · rw [List.get?_eq_getElem?]
      exact List.getElem?_eq_none (Nat.le_refl _)
    · intro hrun
      exact optionLoopReads_last env argv _ 4 st (by omega) hlen hodd hrun

/-- Witness of C17: with the options `-s 20` the loop reads the indices 4
and 5 of six arguments; with the options `-s 20 -zz` it reads the indices 4
to 7 of seven arguments. -/
theorem option_reads_in_bounds_witness :
    optionLoopReads (exampleEnv triangleMesh "" identityRemesh)
      ["acvdq", "mesh.ply", "100", "0", "-s", "20"] 7 4 (initialState triangleMesh) = [4, 5] ∧
    optionLoopReads (exampleEnv triangleMesh "" identityRemesh)
      ["acvdq", "mesh.ply", "100", "0", "-s", "20", "-zz"] 8 4 (initialState triangleMesh) =
      [4, 5, 6, 7] ∧
    (∀ j ∈ optionLoopReads (exampleEnv triangleMesh "" identityRemesh)
      ["acvdq", "mesh.ply", "100", "0", "-s", "20"]
      (["acvdq", "mesh.ply", "100", "0", "-s", "20"].length + 1) 4 (initialState triangleMesh),
      j < ["acvdq", "mesh.ply", "100", "0", "-s", "20"].length) ∧
    ["acvdq", "mesh.ply", "100", "0", "-s", "20", "-zz"].length ∈
      optionLoopReads (exampleEnv triangleMesh "" identityRemesh)
        ["acvdq", "mesh.ply", "100", "0", "-s", "20", "-zz"]
        (["acvdq", "mesh.ply", "100", "0", "-s", "20", "-zz"].length + 1) 4
        (initialState triangleMesh) :=
  ⟨by decide, by decide,
    (option_reads_in_bounds (exampleEnv triangleMesh "" identityRemesh)
      ["acvdq", "mesh.ply", "100", "0", "-s", "20"] (initialState triangleMesh)).1
      (Or.inr (by decide)),
    ((option_reads_in_bounds (exampleEnv triangleMesh "" identityRemesh)
      ["acvdq", "mesh.ply", "100", "0", "-s", "20", "-zz"] (initialState triangleMesh)).2
      ⟨by decide, by decide⟩).2.2 (by decide)⟩

/-- C18. On every argument vector: the argument at position 2, when there is
one, is taken as the number of vertices by `atoi`, and the argument at
position 3 as the gradation by `atof`; the option loop does not depend on
these two arguments; and with `argc <= 4` the loop makes no turn, reads no
argument and leaves the variables as they were, so that the engine is
configured from the initial values of the options. -/
theorem positional_arguments (env : Env) (argv : List String) :
    (∀ a, argv.get? 2 = some a → numberOfSamples env argv = atoi a) ∧
    (∀ a, argv.get? 3 = some a → gradation env argv = env.atof a) ∧
    (∀ b2 b3 st, optionLoop env argv (argv.length + 1) 4 st =
      optionLoop env ((argv.set 2 b2).set 3 b3) (((argv.set 2 b2).set 3 b3).length + 1) 4 st) ∧
    (argv.length ≤ 4 →
      (∀ st, optionLoop env argv (argv.length + 1) 4 st = some st) ∧
      (∀ st, optionLoopReads env argv (argv.length + 1) 4 st = []) ∧
      (∀ filename n, argv.get? 1 = some filename → filename.length < 5000 →
        numberOfSamples env argv = some n →
        main env argv =
          finish env (initialState (env.CreateFromFile filename))
            (configure (initialState (env.CreateFromFile filename)) n (gradation env argv)))) := by
  refine ⟨?_, ?_, ?_, ?_⟩
  · intro a ha
    simp only [numberOfSamples, ha]
  · intro a ha
    simp only [gradation, ha]
  · intro b2 b3 st
    rw [optionLoop_eq_runPairs env argv _ 4 st (by omega),
      optionLoop_eq_runPairs env _ _ 4 st (by omega),
      List.drop_set_of_lt b3 _ (by omega), List.drop_set_of_lt b2 _ (by omega)]
  · intro hlen
    refine ⟨fun st => optionLoop_short env argv st hlen, ?_, ?_⟩
    · intro st
      have hlt : ¬ 4 < argv.length := by omega
      simp only [optionLoopReads, hlt, if_false]
    · intro filename n hfile hshort hn
      exact main_of_stages env argv filename n _ hfile hshort hn
        (optionLoop_short env argv _ hlen)

/-- Witness of C18: on the four arguments `acvdq mesh.ply -s 20` the tokens
`-s` and `20` are the number of vertices (`atoi` gives 0) and the gradation;
the subsampling threshold handed to the engine is the initial 10. -/
theorem positional_arguments_witness :
    numberOfSamples (exampleEnv triangleMesh "" identityRemesh)
      ["acvdq", "mesh.ply", "-s", "20"] = some 0 ∧
    (configure (initialState triangleMesh) 0 zero).SubsamplingThreshold = some 10 ∧
    main (exampleEnv triangleMesh "" identityRemesh) ["acvdq", "mesh.ply", "-s", "20"] =
      finish (exampleEnv triangleMesh "" identityRemesh)
        (initialState ((exampleEnv triangleMesh "" identityRemesh).CreateFromFile "mesh.ply"))
        (configure
          (initialState ((exampleEnv triangleMesh "" identityRemesh).CreateFromFile "mesh.ply"))
          0 (gradation (exampleEnv triangleMesh "" identityRemesh)
            ["acvdq", "mesh.ply", "-s", "20"])) :=
  ⟨by decide, by decide,
    ((positional_arguments (exampleEnv triangleMesh "" identityRemesh)
      ["acvdq", "mesh.ply", "-s", "20"]).2.2.2 (by decide)).2.2 "mesh.ply" 0
      (by decide) (by decide) (by decide)⟩

end ACVDQ
